import Mathlib

/-!
# Verification of the social-graph temporal graph-construction engine

A shallow embedding, in Lean 4, of the core of the `social-graph` backend
(`backend/src/social_graph/{collector,frame_builder,api,models}.py`), together
with theorems settling the specification claims about it.

Modelling conventions:
* Python `float` is modelled by an arbitrary `LinearOrderedField α`
  (instantiated at `ℚ` for executable checks and at `ℝ` where the source uses
  transcendental functions such as `math.pow`).
* `datetime` values are epoch seconds (`ℤ`); nullable columns are `Option`.
* Python `dict` (insertion-ordered) is an association list with
  insertion-order-preserving update; Python `set` iteration order (which is
  implementation defined) is determinised as first-occurrence order or, where
  noted, ascending order.
* Environment functions the code calls (`math.log1p`, `math.sqrt`, `math.cos`,
  `math.sin`, `math.pi`, `random.uniform`, `hash`, `utc_now`) are passed in as
  an explicit `Env` record of parameters.
* Python `sorted` / `list.sort` are stable; they are modelled with
  `List.insertionSort`, which is also stable, under the corresponding
  (total, transitive) relation.
* SQLAlchemy's declarative constructor raises `TypeError` for a keyword that
  is not an attribute of the model class; row construction is therefore
  modelled as fallible, checked against the column/relationship names declared
  in `models.py`.
-/

namespace SocialGraph

/-! ## Insertion-ordered association lists (Python `dict`) -/

/-- Lookup in an association list (first match; keys are unique by
construction everywhere below). -/
def lookupAL {κ α : Type} [DecidableEq κ] (k : κ) : List (κ × α) → Option α
  | [] => none
  | (k2, v) :: rest => if k2 = k then some v else lookupAL k rest

/-- `d[k] = f(d.get(k, dflt))` : update an existing key in place, else append
at the end (Python dict insertion order). -/
def updAL {κ α : Type} [DecidableEq κ] (k : κ) (dflt : α) (f : α → α) :
    List (κ × α) → List (κ × α)
  | [] => [(k, f dflt)]
  | (k2, v) :: rest => if k2 = k then (k2, f v) :: rest else (k2, v) :: updAL k dflt f rest

/-- `d[k] = v` (insert or overwrite). -/
def setAL {κ α : Type} [DecidableEq κ] (k : κ) (v : α) (l : List (κ × α)) :
    List (κ × α) :=
  updAL k v (fun _ => v) l

/-- `d[k] += w` on a `defaultdict(float)`. -/
def bumpAL {κ α : Type} [DecidableEq κ] [Add α] [Zero α] (k : κ) (w : α)
    (l : List (κ × α)) : List (κ × α) :=
  updAL k 0 (· + w) l

/-- `d[k].append(e)` on a `defaultdict(list)`. -/
def pushAL {κ α : Type} [DecidableEq κ] (k : κ) (e : α)
    (l : List (κ × List α)) : List (κ × List α) :=
  updAL k [] (· ++ [e]) l

/-- First-occurrence-order deduplication; determinises Python `set`
construction from an iteration. -/
def collectDistinct {κ : Type} [DecidableEq κ] (l : List κ) : List κ :=
  l.foldl (fun acc a => if a ∈ acc then acc else acc ++ [a]) []

/-! ## Two's-complement-free numeric helpers -/

/-- Python `x or 0` for a nullable non-negative integer column. -/
def orZero : Option ℤ → ℤ
  | none => 0
  | some v => v

/-- Python `x or 1` (both `None` and `0` are falsy). -/
def orOne : Option ℤ → ℤ
  | none => 1
  | some v => if v = 0 then 1 else v

/-- Round-half-to-even to an integer (Python `round` semantics, exact). -/
def roundHalfEven {α : Type} [LinearOrderedField α] [FloorRing α] (x : α) : ℤ :=
  let f := Int.floor x
  let r := x - f
  if r < 1 / 2 then f
  else if 1 / 2 < r then f + 1
  else if f % 2 = 0 then f else f + 1

/-- Python `round(x, 2)` (exact decimal model). -/
def round2 {α : Type} [LinearOrderedField α] [FloorRing α] (x : α) : α :=
  (roundHalfEven (100 * x) : α) / 100

/-! ## Data model (`models.py`)

Records carry exactly the columns declared in `models.py` (plus the membership
relationship lists, inlined into `SnapshotRec` for convenience). -/

structure AccountRec where
  account_id : String
  handle : Option String := none
  name : Option String := none
  avatar_url : Option String := none
  bio : Option String := none
  followers_count : Option ℤ := none
  following_count : Option ℤ := none
  tweet_count : Option ℤ := none
  created_at : Option ℤ := none
  deriving DecidableEq

structure SnapshotRec where
  snapshot_id : ℤ
  run_id : ℤ := 0
  captured_at : ℤ
  kind : String
  account_count : ℤ := 0
  /-- `snapshot.followers` relationship rows, in insertion order
  (account ids). -/
  followers : List String := []
  /-- `snapshot.following` relationship rows, in insertion order. -/
  following : List String := []
  deriving DecidableEq

structure IntervalRec where
  interval_id : ℤ
  snapshot_start_id : ℤ
  snapshot_end_id : ℤ
  start_at : Option ℤ
  end_at : Option ℤ
  new_followers_count : ℤ
  lost_followers_count : ℤ
  deriving DecidableEq

structure FollowEventRec where
  interval_id : ℤ
  account_id : String
  kind : String
  deriving DecidableEq

structure InteractionEventRec where
  interval_id : ℤ
  created_at : ℤ
  src_id : String
  dst_id : String
  interaction_type : String
  post_id : Option String := none
  deriving DecidableEq

structure PostEngagerRec where
  interval_id : ℤ
  post_id : String
  account_id : String
  engager_type : String
  deriving DecidableEq

/-! ## Interval diffing (`Collector.compute_interval_diff`)

The source forms Python sets of the membership account ids, takes the two set
differences, creates the `Interval` row, then one `FollowEvent` per element.
Set formation is `List.toFinset`; iteration over a Python set is determinised
as ascending order via `Finset.sort`-free sorted dedup lists. -/

/-- Account-id set of a snapshot, by kind, as in `compute_interval_diff`
(`{sf.account_id for sf in snapshot.followers}` etc.). -/
def snapshotIdSet (s : SnapshotRec) : Finset String :=
  (if s.kind = "followers" then s.followers else s.following).toFinset

/-- The same set as a duplicate-free list in ascending order (determinised
Python set iteration order). -/
def snapshotIdList (s : SnapshotRec) : List String :=
  List.insertionSort (· ≤ ·)
    (if s.kind = "followers" then s.followers else s.following).dedup

/-- `Collector.compute_interval_diff` (collector.py:683-741).  Raises
`CollectorError` when the snapshot kinds differ; otherwise creates the
`Interval` row and one `FollowEvent` per element of each set difference.
The fresh `interval_id` is supplied by the caller (database autoincrement). -/
def computeIntervalDiff (freshIntervalId : ℤ) (snapshot_start snapshot_end : SnapshotRec) :
    Except String (IntervalRec × List FollowEventRec) :=
  if snapshot_start.kind ≠ snapshot_end.kind then
    .error "Cannot diff snapshots of different kinds"
  else
    let start_ids := snapshotIdList snapshot_start
    let end_ids := snapshotIdList snapshot_end
    let new_ids := end_ids.filter (fun a => a ∉ start_ids)
    let lost_ids := start_ids.filter (fun a => a ∉ end_ids)
    let interval : IntervalRec :=
      { interval_id := freshIntervalId
        snapshot_start_id := snapshot_start.snapshot_id
        snapshot_end_id := snapshot_end.snapshot_id
        start_at := some snapshot_start.captured_at
        end_at := some snapshot_end.captured_at
        new_followers_count := new_ids.length
        lost_followers_count := lost_ids.length }
    let events : List FollowEventRec :=
      new_ids.map (fun a => { interval_id := freshIntervalId, account_id := a, kind := "new" })
        ++ lost_ids.map (fun a => { interval_id := freshIntervalId, account_id := a, kind := "lost" })
    .ok (interval, events)

/-! ## Follower collection (`Collector.collect_followers`)

`collect_followers` paginates, upserts each user, and creates one
`SnapshotFollower` row per user with `follow_position = global_position`, a
counter incremented across all pages.  SQLAlchemy's declarative constructor
raises `TypeError` for any keyword that is not an attribute of the model
class; the attribute lists below are transcribed from `models.py`, and the
keyword lists from the constructor calls in `collector.py`. -/

/-- SQLAlchemy declarative construction: error on the first keyword argument
that is not a class attribute. -/
def declarativeConstruct (clsName : String) (classAttrs kwargs : List String) :
    Except String Unit :=
  match kwargs.find? (fun k => !(classAttrs.contains k)) with
  | some k => .error (k ++ " is an invalid keyword argument for " ++ clsName)
  | none => .ok ()

/-- Attributes of `models.Account` (columns + relationships). -/
def accountClassAttrs : List String :=
  ["account_id", "handle", "name", "avatar_url", "bio", "followers_count",
   "following_count", "tweet_count", "created_at", "last_seen_at", "posts"]

/-- Keyword arguments passed by `Collector._upsert_account` when creating a
new `Account` (collector.py:174-191, in call order). -/
def accountCtorKwargs : List String :=
  ["account_id", "handle", "name", "avatar_url", "cover_url", "bio",
   "location", "followers_count", "following_count", "tweet_count",
   "media_count", "favourites_count", "is_automated", "possibly_sensitive",
   "can_dm", "created_at"]

/-- Attributes of `models.SnapshotFollower` (columns + relationship). -/
def snapshotFollowerClassAttrs : List String :=
  ["id", "snapshot_id", "account_id", "snapshot"]

/-- Keyword arguments passed by `Collector.collect_followers` when creating a
`SnapshotFollower` row (collector.py:627-631). -/
def snapshotFollowerCtorKwargs : List String :=
  ["snapshot_id", "account_id", "follow_position"]

/-- `_upsert_account`: the update branch assigns plain attributes (no error);
the create branch runs the `Account` constructor with `accountCtorKwargs`. -/
def upsertAccount (existingAccountIds : List String) (userId : String) :
    Except String Unit :=
  if userId ∈ existingAccountIds then .ok ()
  else declarativeConstruct "Account" accountClassAttrs accountCtorKwargs

/-- The per-user body of `collect_followers`: upsert the account, then
construct the `SnapshotFollower` membership row carrying `follow_position`.
Returns the membership rows as `(account_id, follow_position)` pairs. -/
def collectFollowersUsers (existingAccountIds : List String) :
    List String → ℕ → Except String (List (String × ℕ))
  | [], _ => .ok []
  | u :: rest, pos => do
      upsertAccount existingAccountIds u
      declarativeConstruct "SnapshotFollower" snapshotFollowerClassAttrs
        snapshotFollowerCtorKwargs
      let tail ← collectFollowersUsers existingAccountIds rest (pos + 1)
      .ok ((u, pos) :: tail)

/-- `Collector.collect_followers` (collector.py:591-638), restricted to its
membership-row construction: pages of user ids are processed in order with a
single `global_position` counter started at `0`. -/
def collectFollowers (existingAccountIds : List String)
    (pages : List (List String)) : Except String (List (String × ℕ)) :=
  collectFollowersUsers existingAccountIds pages.flatten 0

/-- The membership rows `collect_followers` is written to produce (same
traversal and counter, without the schema failure): user `i` of the
concatenated pages gets `follow_position = i`. -/
def collectFollowersIntended (pages : List (List String)) : List (String × ℕ) :=
  pages.flatten.enum.map (fun p => (p.2, p.1))

/-! ## Recency decay (`frame_builder.compute_recency_decay`) -/

/-- `RECENCY_DECAY_HALF_LIFE_DAYS` (frame_builder.py:49). -/
def recencyDecayHalfLifeDays : ℝ := 14

/-- `compute_recency_decay` (frame_builder.py:132-145): null inputs give 1,
future events give 1, otherwise `2 ^ (-days_ago / 14)` with `days_ago`
computed from seconds. -/
noncomputable def computeRecencyDecay (event_time reference_time : Option ℤ) : ℝ :=
  match event_time, reference_time with
  | some t, some r =>
      let days_ago : ℝ := ((r - t : ℤ) : ℝ) / 86400
      if days_ago < 0 then 1
      else (2 : ℝ) ^ (-days_ago / recencyDecayHalfLifeDays)
  | _, _ => 1

/-! ## Frame builder (`frame_builder.py`)

Weights and coordinates live in a `LinearOrderedField α`.  The environment
functions used by the source (`math.log1p`, `math.sqrt`, `math.cos`,
`math.sin`, `math.pi`, `random.uniform`, `hash`, `utc_now`) are parameters. -/

structure Env (α : Type) where
  log1p : α → α
  sqrtF : α → α
  cosF : α → α
  sinF : α → α
  piF : α
  /-- `random.uniform(lo, hi)` (stateless determinisation of the PRNG). -/
  uniform : α → α → α
  /-- Python `hash` of an account id. -/
  hashF : String → ℕ
  /-- `utc_now()` as epoch seconds. -/
  now : ℤ

/-- `GraphNode` dataclass (frame_builder.py:101-115). -/
structure GraphNode (α : Type) where
  account_id : String
  handle : Option String := none
  name : Option String := none
  avatar_url : Option String := none
  followers_count : ℤ
  importance : α
  community_id : ℕ
  x : α
  y : α
  z : α
  is_new : Bool
  is_ego : Bool
  deriving DecidableEq

/-- `GraphEdge` dataclass (frame_builder.py:118-125); the `meta` blob is set
only by the unused `build_ego_follow_edges` and is omitted. -/
structure GraphEdge (α : Type) where
  src_id : String
  dst_id : String
  edge_type : String
  weight : α
  deriving DecidableEq

/-- A `Position` row (models.py:257-273). -/
structure PositionRec (α : Type) where
  interval_id : ℤ
  account_id : String
  x : α
  y : α
  z : α
  deriving DecidableEq

/-- The normalized/derived store as seen by the frame builder, rows in
insertion order (SQLite default result order). -/
structure Db (α : Type) where
  accounts : List AccountRec := []
  snapshots : List SnapshotRec := []
  followEvents : List FollowEventRec := []
  interactionEvents : List InteractionEventRec := []
  postEngagers : List PostEngagerRec := []
  intervals : List IntervalRec := []
  positions : List (PositionRec α) := []

/-- `EDGE_WEIGHTS.get(interaction_type, 1.0)` (frame_builder.py:41-47, 181). -/
def edgeWeightBase {α : Type} [LinearOrderedField α] (t : String) : α :=
  if t = "reply" then 4
  else if t = "quote" then 3
  else if t = "mention" then 2
  else if t = "retweet" then 1
  else if t = "like" then 1 / 2
  else 1

/-- Resolve `reference_time` as in the builders: the `reference_time`
argument if given, else `interval.end_at` (the `getD 0` models the crash the
source would have on a null `end_at`, which no caller produces). -/
def resolveRef (interval : IntervalRec) (reference_time : Option ℤ) : ℤ :=
  match reference_time with
  | some r => r
  | none => interval.end_at.getD 0

/-- The `InteractionEvent` query of `build_edges_from_interactions`
(frame_builder.py:166-175): events with
`window_start <= created_at <= reference_time`. -/
def eventsInWindow {α : Type} (db : Db α) (interval : IntervalRec)
    (timeframe_days : ℤ) (reference_time : Option ℤ) :
    List InteractionEventRec :=
  let ref := resolveRef interval reference_time
  db.interactionEvents.filter (fun ev =>
    (if 0 < timeframe_days then decide (ref - timeframe_days * 86400 ≤ ev.created_at) else true)
      && decide (ev.created_at ≤ ref))

/-- `build_edges_from_interactions` (frame_builder.py:152-191), generic in
the decay function so that it can be evaluated over `ℚ`; the source
instantiates it with `compute_recency_decay` (see
`buildEdgesFromInteractions`).  Events in `[ref - timeframe_days, ref]`
contribute `base_weight(type) * decay(created_at, ref)`, summed per
`(src, dst, "direct_interaction")` key. -/
def buildEdgesFromInteractionsWith {α : Type} [LinearOrderedField α]
    (decayF : ℤ → ℤ → α) (db : Db α) (interval : IntervalRec)
    (timeframe_days : ℤ) (reference_time : Option ℤ) : List (GraphEdge α) :=
  let ref := resolveRef interval reference_time
  let events := eventsInWindow db interval timeframe_days reference_time
  let agg : List ((String × String × String) × α) :=
    events.foldl (fun acc ev =>
      bumpAL (ev.src_id, ev.dst_id, "direct_interaction")
        (edgeWeightBase ev.interaction_type * decayF ev.created_at ref) acc) []
  agg.map (fun p =>
    { src_id := p.1.1, dst_id := p.1.2.1, edge_type := p.1.2.2, weight := p.2 })

/-- `build_edges_from_interactions` as the source runs it, over `ℝ` with the
real recency decay. -/
noncomputable def buildEdgesFromInteractions (db : Db ℝ) (interval : IntervalRec)
    (timeframe_days : ℤ) (reference_time : Option ℤ) : List (GraphEdge ℝ) :=
  buildEdgesFromInteractionsWith
    (fun t r => computeRecencyDecay (some t) (some r)) db interval
    timeframe_days reference_time

/-- Unordered pairs `(i, j)` with `i` before `j`, as the nested loop in
`build_edges_from_coengagement` produces them. -/
def allPairs : List String → List (String × String)
  | [] => []
  | a :: rest => rest.map (fun b => (a, b)) ++ allPairs rest

/-- `build_edges_from_coengagement` (frame_builder.py:194-247): `PostEngager`
rows whose owning interval ends inside the window, grouped by post; every
unordered pair of distinct engager accounts yields weight `1`, summed, with
direction normalised to `min → max`. -/
def buildEdgesFromCoengagement {α : Type} [LinearOrderedField α]
    (db : Db α) (interval : IntervalRec) (timeframe_days : ℤ)
    (reference_time : Option ℤ) : List (GraphEdge α) :=
  let ref := resolveRef interval reference_time
  let engagers := db.postEngagers.filter (fun pe =>
    match db.intervals.find? (fun iv => iv.interval_id = pe.interval_id) with
    | some iv =>
        match iv.end_at with
        | some t =>
            (if 0 < timeframe_days then decide (ref - timeframe_days * 86400 ≤ t) else true)
              && decide (t ≤ ref)
        | none => false
    | none => false)
  let byPost : List (String × List (String × String)) :=
    engagers.foldl (fun acc pe => pushAL pe.post_id (pe.account_id, pe.engager_type) acc) []
  let agg : List ((String × String) × α) :=
    byPost.foldl (fun acc p =>
      let ids := collectDistinct (p.2.map Prod.fst)
      (allPairs ids).foldl (fun acc2 q =>
        let key := if q.1 < q.2 then (q.1, q.2) else (q.2, q.1)
        bumpAL key (1 : α) acc2) acc) []
  agg.map (fun p =>
    { src_id := p.1.1, dst_id := p.1.2, edge_type := "co_engagement", weight := p.2 })

/-! ### Community detection (`simple_community_detection`,
frame_builder.py:407-461) -/

/-- The weighted adjacency `defaultdict(lambda: defaultdict(float))`. -/
def scdAdjacency {α : Type} [LinearOrderedField α] (edges : List (GraphEdge α)) :
    List (String × List (String × α)) :=
  edges.foldl (fun acc e =>
    let acc1 := updAL e.src_id [] (fun inner => bumpAL e.dst_id e.weight inner) acc
    updAL e.dst_id [] (fun inner => bumpAL e.src_id e.weight inner) acc1) []

/-- `{nid: i for i, nid in enumerate(node_ids)}`. -/
def initComms (node_ids : List String) : List (String × ℕ) :=
  node_ids.enum.foldl (fun acc p => setAL p.2 p.1 acc) []

/-- Python `max(d.keys(), key=lambda c: d[c])`: the first key attaining the
maximum, in insertion order. -/
def maxCommunity {α : Type} [LinearOrderedField α] (ws : List (ℕ × α)) : Option ℕ :=
  match ws with
  | [] => none
  | w :: rest => some ((rest.foldl (fun acc p => if acc.2 < p.2 then p else acc) w).1)

/-- The `community_weights` accumulator of one visit
(frame_builder.py:442-445): neighbour weights summed per community. -/
def scdWeights {α : Type} [LinearOrderedField α]
    (comms : List (String × ℕ)) (nbrs : List (String × α)) : List (ℕ × α) :=
  nbrs.foldl (fun acc p =>
    match lookupAL p.1 comms with
    | some c => bumpAL c p.2 acc
    | none => acc) []

/-- One node visit of a label-propagation pass (frame_builder.py:437-455):
skip nodes absent from the adjacency, sum incident weights per neighbour
community, and move to the heaviest community if it differs. -/
def scdVisit {α : Type} [LinearOrderedField α]
    (adj : List (String × List (String × α))) (st : List (String × ℕ) × Bool)
    (node_id : String) : List (String × ℕ) × Bool :=
  match lookupAL node_id adj with
  | none => st
  | some nbrs =>
      match maxCommunity (scdWeights st.1 nbrs) with
      | none => st
      | some best =>
          match lookupAL node_id st.1 with
          | some cur =>
              if cur ≠ best then (setAL node_id best st.1, true) else st
          | none => st

/-- One full pass over `node_ids`, threading the `changed` flag. -/
def scdPass {α : Type} [LinearOrderedField α]
    (adj : List (String × List (String × α))) (node_ids : List String)
    (comms : List (String × ℕ)) : List (String × ℕ) × Bool :=
  node_ids.foldl (scdVisit adj) (comms, false)

/-- The `while changed and iteration < max_iterations` loop, `fuel = 10`. -/
def scdLoop {α : Type} [LinearOrderedField α]
    (adj : List (String × List (String × α))) (node_ids : List String) :
    ℕ → List (String × ℕ) → List (String × ℕ)
  | 0, comms => comms
  | fuel + 1, comms =>
      let st := scdPass adj node_ids comms
      if st.2 then scdLoop adj node_ids fuel st.1 else st.1

/-- Label propagation before renumbering. -/
def labelPropagation {α : Type} [LinearOrderedField α]
    (nodes : List (GraphNode α)) (edges : List (GraphEdge α)) :
    List (String × ℕ) :=
  let node_ids := nodes.map (·.account_id)
  scdLoop (scdAdjacency edges) node_ids 10 (initComms node_ids)

/-- `sorted(set(communities.values()))` followed by
`remap = {old: new for new, old in enumerate(...)}` (frame_builder.py:457-461):
labels are renumbered in *ascending order of the provisional label*. -/
def renumberSorted (labels : List (String × ℕ)) : List (String × ℕ) :=
  let uniq := List.insertionSort (· ≤ ·) (labels.map Prod.snd).dedup
  labels.map (fun p => (p.1, uniq.indexOf p.2))

/-- `simple_community_detection` (frame_builder.py:407-461). -/
def simpleCommunityDetection {α : Type} [LinearOrderedField α]
    (nodes : List (GraphNode α)) (edges : List (GraphEdge α)) :
    List (String × ℕ) :=
  renumberSorted (labelPropagation nodes edges)

/-- Modelled from the spec wording (for comparison only): renumbering to
`{0,1,…}` *in order of first appearance* over the node list. -/
def renumberFirstAppearance (labels : List (String × ℕ)) : List (String × ℕ) :=
  let order := collectDistinct (labels.map Prod.snd)
  labels.map (fun p => (p.1, order.indexOf p.2))

/-! ### Sorting relations (Python `sorted` is stable; so is
`List.insertionSort`) -/

/-- Descending-by-key relation, as used by `sorted(key=lambda x: -key(x))`. -/
def keyGE {β γ : Type} [LinearOrder γ] (key : β → γ) (a b : β) : Prop :=
  key b ≤ key a

instance {β γ : Type} [LinearOrder γ] (key : β → γ) : DecidableRel (keyGE key) :=
  fun a b => inferInstanceAs (Decidable (key b ≤ key a))

instance {β γ : Type} [LinearOrder γ] (key : β → γ) : IsTotal β (keyGE key) :=
  ⟨fun a b => le_total (key b) (key a)⟩

instance {β γ : Type} [LinearOrder γ] (key : β → γ) : IsTrans β (keyGE key) :=
  ⟨fun _ _ _ h1 h2 => le_trans h2 h1⟩

/-! ### Importance and pruning (`compute_importance`, `prune_graph`) -/

/-- `FrameBuilder.compute_importance` (frame_builder.py:740-766):
`0.7 * edge_score_norm + 0.3 * log1p(followers)_norm`. -/
def listMaxD {γ : Type} [LinearOrder γ] (dflt : γ) : List γ → γ
  | [] => dflt
  | x :: xs => xs.foldl max x

def computeImportance {α : Type} [LinearOrderedField α] (log1p : α → α)
    (nodes : List (String × GraphNode α)) (edges : List (GraphEdge α)) :
    List (String × α) :=
  let ew : List (String × α) := edges.foldl (fun acc e =>
    bumpAL e.dst_id e.weight (bumpAL e.src_id e.weight acc)) []
  let maxEW : α := listMaxD 1 (ew.map Prod.snd)
  let maxF : ℤ := listMaxD 1 (nodes.map (fun p => p.2.followers_count))
  let maxFLog : α := if 0 < maxF then log1p (maxF : α) else 1
  nodes.map (fun p =>
    (p.1, 7 / 10 * ((lookupAL p.1 ew).getD 0 / maxEW)
        + 3 / 10 * (log1p (p.2.followers_count : α) / maxFLog)))

/-- The min-followers filter (`prune_graph` step 1). -/
def filterMinFollowers {α : Type} (min_followers : ℤ)
    (nodes : List (String × GraphNode α)) : List (String × GraphNode α) :=
  if 0 < min_followers then
    nodes.filter (fun p => min_followers ≤ p.2.followers_count)
  else nodes

/-- Write the computed importance into each node record. -/
def assignImportance {α : Type} [LinearOrderedField α] (log1p : α → α)
    (nodes : List (String × GraphNode α)) (edges : List (GraphEdge α)) :
    List (String × GraphNode α) :=
  let imp := computeImportance log1p nodes edges
  nodes.map (fun p =>
    (p.1, { p.2 with importance := (lookupAL p.1 imp).getD p.2.importance }))

/-- Keep the `max_nodes` most important nodes (stable descending sort), only
when the budget is exceeded. -/
def topNodes {α : Type} [LinearOrderedField α] (max_nodes : ℕ)
    (nodes : List (String × GraphNode α)) : List (String × GraphNode α) :=
  if max_nodes < nodes.length then
    (List.insertionSort (keyGE (fun p : String × GraphNode α => p.2.importance)) nodes).take
      max_nodes
  else nodes

/-- Lexicographic code-point comparison of character lists (Python `str <`). -/
def charListLt : List Char → List Char → Bool
  | _, [] => false
  | [], _ :: _ => true
  | a :: as, b :: bs =>
    if a < b then true else if b < a then false else charListLt as bs

/-- Python `s1 < s2` on strings: lexicographic by code point. -/
def strLtB (a b : String) : Bool := charListLt a.data b.data

/-- Python `min(a, b)` on strings (`a if a <= b else b`). -/
def strMin (a b : String) : String := if strLtB b a then b else a

/-- Python `max(a, b)` on strings. -/
def strMax (a b : String) : String := if strLtB b a then a else b

/-- The undirected dedup key `(min(src,dst), max(src,dst), type)`. -/
def edgeKey {α : Type} (e : GraphEdge α) : String × String × String :=
  (strMin e.src_id e.dst_id, strMax e.src_id e.dst_id, e.edge_type)

/-- `edge_by_node`: each edge appended to both endpoints' buckets. -/
def edgeByNode {α : Type} (edges : List (GraphEdge α)) :
    List (String × List (GraphEdge α)) :=
  edges.foldl (fun acc e => pushAL e.dst_id e (pushAL e.src_id e acc)) []

/-- `kept_edges`: the union over nodes of the keys of each node's
`max_edges_per_node` heaviest incident edges. -/
def keptKeys {α : Type} [LinearOrderedField α] (max_edges_per_node : ℕ)
    (ebn : List (String × List (GraphEdge α))) : List (String × String × String) :=
  ebn.foldl (fun acc p =>
    acc ++ ((List.insertionSort (keyGE (fun e : GraphEdge α => e.weight)) p.2).take
      max_edges_per_node).map edgeKey) []

/-- `FrameBuilder.prune_graph` (frame_builder.py:768-829). -/
def pruneGraph {α : Type} [LinearOrderedField α] (log1p : α → α)
    (nodes : List (String × GraphNode α)) (edges : List (GraphEdge α))
    (max_nodes max_edges max_edges_per_node : ℕ) (min_followers : ℤ) :
    List (String × GraphNode α) × List (GraphEdge α) :=
  let nodes1 := filterMinFollowers min_followers nodes
  let nodes2 := assignImportance log1p nodes1 edges
  let nodes3 := topNodes max_nodes nodes2
  let nodeIds := nodes3.map Prod.fst
  let edges2 := edges.filter (fun e => e.src_id ∈ nodeIds && e.dst_id ∈ nodeIds)
  let kept := keptKeys max_edges_per_node (edgeByNode edges2)
  let edges3 := edges2.filter (fun e => edgeKey e ∈ kept)
  let edges4 :=
    if max_edges < edges3.length then
      (List.insertionSort (keyGE (fun e : GraphEdge α => e.weight)) edges3).take max_edges
    else edges3
  (nodes3, edges4)

/-! ### Tiered hierarchical routing (`_build_network_edges`) -/

/-- `classify_follower_tier` (frame_builder.py:85-98). -/
def classifyFollowerTier (followers_count : ℤ) : ℕ :=
  if 100000 ≤ followers_count then 1
  else if 50000 ≤ followers_count then 2
  else if 10000 ≤ followers_count then 3
  else if 5000 ≤ followers_count then 4
  else if 2000 ≤ followers_count then 5
  else 6

/-- `TIER_EDGE_TYPES` (frame_builder.py:66-73). -/
def tierEdgeType : ℕ → String
  | 1 => "tier_1_ego"
  | 2 => "tier_2_hub"
  | 3 => "tier_3_bridge"
  | 4 => "tier_4_cluster"
  | 5 => "tier_5_outer"
  | _ => "tier_6_leaf"

/-- `TIER_WEIGHTS` (frame_builder.py:75-82). -/
def tierWeight {α : Type} [LinearOrderedField α] : ℕ → α
  | 1 => 9 / 10
  | 2 => 7 / 10
  | 3 => 1 / 2
  | 4 => 2 / 5
  | 5 => 3 / 10
  | _ => 1 / 5

/-- `{a.account_id: a for a in accounts}` over the queried account ids. -/
def accountMapOf {α : Type} (db : Db α) (account_ids : List String) :
    List (String × AccountRec) :=
  (db.accounts.filter (fun a => a.account_id ∈ account_ids)).map
    (fun a => (a.account_id, a))

/-- `account_map.get(x, Account()).followers_count or 0`. -/
def followersOf (amap : List (String × AccountRec)) (aid : String) : ℤ :=
  match lookupAL aid amap with
  | some a => orZero a.followers_count
  | none => 0

/-- Tier buckets, each sorted descending by follower count
(frame_builder.py:1196-1214). -/
def tierBuckets {α : Type} (db : Db α) (ego_id : Option String)
    (account_ids : List String) : List (ℕ × List String) :=
  let amap := accountMapOf db account_ids
  let b0 := account_ids.foldl (fun acc aid =>
    if some aid = ego_id then acc
    else match lookupAL aid amap with
      | none => acc
      | some acc2 =>
          pushAL (classifyFollowerTier (orZero acc2.followers_count)) aid acc) []
  b0.map (fun p => (p.1, List.insertionSort (keyGE (followersOf amap)) p.2))

/-- `find_nearest_in_tier` (frame_builder.py:1220-1246): best follower-count
ratio among the top 50 candidates of the target tier. -/
def findNearestInTier {α : Type} [LinearOrderedField α]
    (amap : List (String × AccountRec)) (buckets : List (ℕ × List String))
    (account_id : String) (target_tier : ℕ) : Option String :=
  let candidates := (lookupAL target_tier buckets).getD []
  if candidates = [] then none
  else
    match lookupAL account_id amap with
    | none => candidates.head?
    | some acc =>
        let af := orOne acc.followers_count
        let best := (candidates.take 50).foldl
          (fun (st : Option (String × α)) cid =>
            match lookupAL cid amap with
            | none => st
            | some cacc =>
                let cf := orOne cacc.followers_count
                let ratio : α := ((max af cf : ℤ) : α) / ((max (min af cf) 1 : ℤ) : α)
                match st with
                | none => some (cid, ratio)
                | some b => if ratio < b.2 then some (cid, ratio) else st) none
        match best with
        | some b => some b.1
        | none => candidates.head?

/-- `find_any_higher_tier` (frame_builder.py:1248-1254): search tiers
`current-1, …, 1` in order. -/
def findAnyHigherTier {α : Type} [LinearOrderedField α]
    (amap : List (String × AccountRec)) (buckets : List (ℕ × List String))
    (account_id : String) (current_tier : ℕ) : Option (String × ℕ) :=
  ((List.range (current_tier - 1)).reverse.map (· + 1)).foldl
    (fun st t =>
      match st with
      | some _ => st
      | none =>
          match findNearestInTier (α := α) amap buckets account_id t with
          | some target => some (target, t)
          | none => none) none

/-- `FrameBuilder._build_network_edges` (frame_builder.py:1168-1306). -/
def networkEdges {α : Type} [LinearOrderedField α] (db : Db α)
    (account_ids : List String) (ego_id : Option String)
    (mutual_ids : List String) : List (GraphEdge α) :=
  let amap := accountMapOf db account_ids
  let buckets := tierBuckets db ego_id account_ids
  ([6, 5, 4, 3, 2, 1] : List ℕ).foldl (fun edges tier =>
    ((lookupAL tier buckets).getD []).foldl (fun es aid =>
      if aid ∈ mutual_ids then es
      else if tier = 1 then
        match ego_id with
        | some e => es ++ [⟨aid, e, tierEdgeType 1, tierWeight 1⟩]
        | none => es
      else
        match findNearestInTier (α := α) amap buckets aid (tier - 1) with
        | some target => es ++ [⟨aid, target, tierEdgeType tier, tierWeight tier⟩]
        | none =>
            match findAnyHigherTier (α := α) amap buckets aid tier with
            | some p => es ++ [⟨aid, p.1, tierEdgeType tier, tierWeight tier * (4 / 5)⟩]
            | none =>
                match ego_id with
                | some e =>
                    if tier ≤ 3 then es ++ [⟨aid, e, "fallback_ego", 2 / 5⟩] else es
                | none => es) edges) []

/-! ### Frame payload structures (`build_frame` / `_empty_frame`) -/

structure FrameStats where
  nodeCount : ℕ
  edgeCount : ℕ
  communityCount : ℕ
  newFollowers : ℕ
  deriving DecidableEq

structure FrameNodeRec (α : Type) where
  id : String
  handle : Option String
  name : Option String
  avatar : Option String
  followers : ℤ
  importance : α
  community : ℕ
  x : α
  y : α
  z : α
  isNew : Bool
  isEgo : Bool
  deriving DecidableEq

structure FrameEdgeRec (α : Type) where
  source : String
  target : String
  etype : String
  weight : α
  deriving DecidableEq

structure FrameData (α : Type) where
  interval_id : ℤ
  timeframe_days : ℤ
  timestamp : ℤ
  /-- `none` models the `ego_id` key being absent (`_empty_frame` omits it). -/
  ego_id : Option String := none
  nodes : List (FrameNodeRec α)
  edges : List (FrameEdgeRec α)
  communities : List ℕ
  stats : FrameStats
  deriving DecidableEq

/-- `FrameBuilder._empty_frame` (frame_builder.py:685-707). -/
def emptyFrame {α : Type} (now : ℤ) (timeframe_days : ℤ)
    (interval : Option IntervalRec) : FrameData α :=
  { interval_id := match interval with | some i => i.interval_id | none => 0
    timeframe_days := timeframe_days
    timestamp := match interval with | some i => i.end_at.getD now | none => now
    ego_id := none
    nodes := []
    edges := []
    communities := []
    stats := { nodeCount := 0, edgeCount := 0, communityCount := 0, newFollowers := 0 } }

/-- Cumulative follower ids: union of `snapshot.followers` over snapshots of
kind `followers` captured at or before `t` (ascending capture order). -/
def followerIdsUpTo {α : Type} (db : Db α) (t : ℤ) : List String :=
  collectDistinct
    ((List.insertionSort (keyGE (fun s : SnapshotRec => (-s.captured_at)))
        (db.snapshots.filter (fun s => s.kind = "followers" && decide (s.captured_at ≤ t)))).flatMap
      (·.followers))

/-- Cumulative following ids, as `followerIdsUpTo`. -/
def followingIdsUpTo {α : Type} (db : Db α) (t : ℤ) : List String :=
  collectDistinct
    ((List.insertionSort (keyGE (fun s : SnapshotRec => (-s.captured_at)))
        (db.snapshots.filter (fun s => s.kind = "following" && decide (s.captured_at ≤ t)))).flatMap
      (·.following))

/-- `FrameBuilder.build_frame` (frame_builder.py:831-1065).  The empty paths
return `_empty_frame`; every non-empty path executes
`from .models import NetworkConnection` (frame_builder.py:927), and
`models.py` declares no `NetworkConnection` class, so that statement raises
`ImportError`.  The node gathering and pruning performed before that line
(frame_builder.py:853-917) are pure and their results are discarded by the
exception. -/
def buildFrame {α : Type} [LinearOrderedField α] (env : Env α) (db : Db α)
    (interval : Option IntervalRec) (timeframe_days : ℤ)
    (ego_id : Option String) : Except String (FrameData α) :=
  match interval with
  | none => .ok (emptyFrame env.now timeframe_days none)
  | some itv =>
      let reference_time : ℤ := itv.end_at.getD env.now
      let follower_ids := followerIdsUpTo db reference_time
      let following_ids := followingIdsUpTo db reference_time
      let all_account_ids := collectDistinct
        (follower_ids ++ following_ids
          ++ (match ego_id with | some e => [e] | none => []))
      if all_account_ids = [] then .ok (emptyFrame env.now timeframe_days (some itv))
      else
        .error "ImportError: cannot import name NetworkConnection from social_graph.models"

/-! ### Layout (`compute_positions`, `force_directed_layout`) -/

/-- Add a force vector into the per-node force accumulator. -/
def addForce {α : Type} [LinearOrderedField α] (nid : String) (fx fy fz : α)
    (forces : List (String × (α × α × α))) : List (String × (α × α × α)) :=
  updAL nid (0, 0, 0) (fun f => (f.1 + fx, f.2.1 + fy, f.2.2 + fz)) forces

/-- One iteration of `force_directed_layout` (frame_builder.py:592-666):
pairwise repulsion, attraction along edges, temperature-clamped movement with
the ego re-pinned to the origin. -/
def fdlStep {α : Type} [LinearOrderedField α] (env : Env α)
    (node_ids : List String) (edges : List (GraphEdge α))
    (ego_id : Option String) (temperature : α)
    (positions : List (String × (α × α × α))) : List (String × (α × α × α)) :=
  let forces0 := node_ids.foldl (fun acc nid => setAL nid ((0 : α), 0, 0) acc) []
  let forces1 := (allPairs node_ids).foldl (fun fs p =>
    match lookupAL p.1 positions, lookupAL p.2 positions with
    | some pi2, some pj =>
        let dx := pi2.1 - pj.1
        let dy := pi2.2.1 - pj.2.1
        let dz := pi2.2.2 - pj.2.2
        let dist := env.sqrtF (dx * dx + dy * dy + dz * dz) + 1 / 100
        let force := 1000 / (dist * dist)
        let fx := force * dx / dist
        let fy := force * dy / dist
        let fz := force * dz / dist
        addForce p.2 (-fx) (-fy) (-fz) (addForce p.1 fx fy fz fs)
    | _, _ => fs) forces0
  let forces2 := edges.foldl (fun fs e =>
    match lookupAL e.src_id positions, lookupAL e.dst_id positions with
    | some p1, some p2 =>
        let dx := p2.1 - p1.1
        let dy := p2.2.1 - p1.2.1
        let dz := p2.2.2 - p1.2.2
        let dist := env.sqrtF (dx * dx + dy * dy + dz * dz) + 1 / 100
        let force := 1 / 100 * dist * e.weight
        let fx := force * dx / dist
        let fy := force * dy / dist
        let fz := force * dz / dist
        addForce e.dst_id (-fx) (-fy) (-fz) (addForce e.src_id fx fy fz fs)
    | _, _ => fs) forces1
  node_ids.foldl (fun pos nid =>
    match lookupAL nid pos with
    | none => pos
    | some p =>
        if some nid = ego_id then setAL nid ((0 : α), 0, 0) pos
        else
          let f := (lookupAL nid forces2).getD (0, 0, 0)
          let fm := env.sqrtF (f.1 * f.1 + f.2.1 * f.2.1 + f.2.2 * f.2.2) + 1 / 100
          let movement := min fm temperature
          setAL nid
            (p.1 + f.1 / fm * movement, p.2.1 + f.2.1 / fm * movement,
             p.2.2 + f.2.2 / fm * movement) pos) positions

/-- The bounded iteration loop with multiplicative cooling. -/
def fdlIter {α : Type} [LinearOrderedField α] (env : Env α)
    (node_ids : List String) (edges : List (GraphEdge α))
    (ego_id : Option String) (cooling : α) :
    ℕ → α → List (String × (α × α × α)) → List (String × (α × α × α))
  | 0, _, positions => positions
  | n + 1, temperature, positions =>
      fdlIter env node_ids edges ego_id cooling n (temperature * cooling)
        (fdlStep env node_ids edges ego_id temperature positions)

/-- `force_directed_layout` (frame_builder.py:552-672): the ego is pinned to
the origin before the loop, re-pinned on every iteration, and pinned again
after the loop. -/
def forceDirectedLayout {α : Type} [LinearOrderedField α] (env : Env α)
    (nodes : List (GraphNode α)) (edges : List (GraphEdge α))
    (initial_positions : List (String × (α × α × α))) (max_iterations : ℕ)
    (cooling_factor : α) (ego_id : Option String) :
    List (String × (α × α × α)) :=
  let positions0 := match ego_id with
    | some e => setAL e ((0 : α), 0, 0) initial_positions
    | none => initial_positions
  let node_ids := nodes.map (·.account_id)
  let out := fdlIter env node_ids edges ego_id cooling_factor max_iterations 10 positions0
  match ego_id with
  | some e => setAL e ((0 : α), 0, 0) out
  | none => out

/-- `compute_positions` (frame_builder.py:468-549): seed from the previous
interval's positions, else near the strongest-weighted placed neighbour with
jitter, else on a per-community ring; pin the ego; then run the layout. -/
def computePositions {α : Type} [LinearOrderedField α] (env : Env α)
    (db : Db α) (interval : IntervalRec) (nodes : List (GraphNode α))
    (edges : List (GraphEdge α)) (communities : List (String × ℕ))
    (ego_id : Option String) : List (String × (α × α × α)) :=
  let prev_interval := (db.intervals.filter
      (fun iv => iv.interval_id < interval.interval_id)).foldl
    (fun acc iv =>
      match acc with
      | none => some iv
      | some b => if b.interval_id < iv.interval_id then some iv else acc) none
  let prev_positions : List (String × (α × α × α)) :=
    match prev_interval with
    | some pv =>
        (db.positions.filter (fun p => p.interval_id = pv.interval_id)).map
          (fun p => (p.account_id, (p.x, p.y, p.z)))
    | none => []
  let adjacency := edges.foldl (fun acc e =>
    pushAL e.dst_id (e.src_id, e.weight) (pushAL e.src_id (e.dst_id, e.weight) acc)) []
  let positions1 := nodes.foldl (fun pos node =>
    match lookupAL node.account_id prev_positions with
    | some p => setAL node.account_id p pos
    | none =>
        let neighbors := (lookupAL node.account_id adjacency).getD []
        let sortedNbrs :=
          List.insertionSort (keyGE (fun q : String × α => q.2)) neighbors
        let seeded := sortedNbrs.foldl (fun (st : Option (α × α × α)) q =>
          match st with
          | some _ => st
          | none =>
              match lookupAL q.1 pos with
              | some np =>
                  some (np.1 + env.uniform (-2) 2, np.2.1 + env.uniform (-2) 2,
                    np.2.2 + env.uniform (-2) 2)
              | none => none) none
        match seeded with
        | some p => setAL node.account_id p pos
        | none =>
            let community := (lookupAL node.account_id communities).getD 0
            let num_communities :=
              max (collectDistinct (communities.map Prod.snd)).length 1
            let angle : α := (community : α) * 2 * env.piF / (num_communities : α)
            let radius : α := 50 + ((env.hashF node.account_id % 30 : ℕ) : α)
            setAL node.account_id
              (radius * env.cosF angle + env.uniform (-5) 5,
               radius * env.sinF angle + env.uniform (-5) 5,
               env.uniform (-10) 10) pos) []
  let positions2 := match ego_id with
    | some e => setAL e ((0 : α), 0, 0) positions1
    | none => positions1
  forceDirectedLayout env nodes edges positions2 50 (19 / 20) ego_id

/-! ### Frame persistence (`FrameBuilder.save_frame`)

`save_frame` deletes the interval's `Edge`/`Community`/`Position`/`Frame`
rows, **commits**, inserts the new rows (including `PositionHistory`), and
commits again.  The store is modelled as a pair (committed state, transaction
state); a crash after `k` primitive operations keeps only the committed
state. -/

structure EdgeRow (α : Type) where
  interval_id : ℤ
  src_id : String
  dst_id : String
  edge_type : String
  weight : α
  deriving DecidableEq

structure CommunityRow where
  interval_id : ℤ
  account_id : String
  community_id : ℕ
  deriving DecidableEq

structure PosHistRow (α : Type) where
  interval_id : ℤ
  account_id : String
  x : α
  y : α
  z : α
  source : String
  deriving DecidableEq

structure FrameRow (α : Type) where
  interval_id : ℤ
  timeframe_window : ℤ
  frame : FrameData α
  node_count : ℕ
  edge_count : ℕ
  deriving DecidableEq

structure Store (α : Type) where
  edges : List (EdgeRow α) := []
  communities : List CommunityRow := []
  positions : List (PositionRec α) := []
  posHistory : List (PosHistRow α) := []
  frames : List (FrameRow α) := []
  deriving DecidableEq

inductive SaveOp (α : Type) where
  | delEdges (interval_id : ℤ)
  | delCommunities (interval_id : ℤ)
  | delPositions (interval_id : ℤ)
  | delFrames (interval_id : ℤ)
  | insEdge (r : EdgeRow α)
  | insCommunity (r : CommunityRow)
  | insPosition (r : PositionRec α)
  | insPosHist (r : PosHistRow α)
  | insFrame (r : FrameRow α)
  | commit

/-- The primitive-operation trace of `save_frame` (frame_builder.py:1095-1166)
for one interval: four deletes, a commit, the inserts, a commit. -/
def saveFrameOps {α : Type} (interval : IntervalRec) (frame_data : FrameData α)
    (timeframe_window : ℤ) : List (SaveOp α) :=
  let iid := interval.interval_id
  [.delEdges iid, .delCommunities iid, .delPositions iid, .delFrames iid, .commit]
    ++ frame_data.edges.map (fun e =>
        .insEdge { interval_id := iid, src_id := e.source, dst_id := e.target,
                   edge_type := e.etype, weight := e.weight })
    ++ frame_data.nodes.flatMap (fun n =>
        [.insCommunity { interval_id := iid, account_id := n.id, community_id := n.community },
         .insPosition { interval_id := iid, account_id := n.id, x := n.x, y := n.y, z := n.z },
         .insPosHist { interval_id := iid, account_id := n.id, x := n.x, y := n.y, z := n.z,
                       source := "frame_build" }])
    ++ [.insFrame { interval_id := iid, timeframe_window := timeframe_window,
                    frame := frame_data, node_count := frame_data.stats.nodeCount,
                    edge_count := frame_data.stats.edgeCount },
        .commit]

/-- Apply one operation to `(committed, transaction)` state. -/
def applySaveOp {α : Type} (st : Store α × Store α) (op : SaveOp α) :
    Store α × Store α :=
  match op with
  | .delEdges iid =>
      (st.1, { st.2 with edges := st.2.edges.filter (fun r => r.interval_id ≠ iid) })
  | .delCommunities iid =>
      (st.1, { st.2 with communities := st.2.communities.filter (fun r => r.interval_id ≠ iid) })
  | .delPositions iid =>
      (st.1, { st.2 with positions := st.2.positions.filter (fun r => r.interval_id ≠ iid) })
  | .delFrames iid =>
      (st.1, { st.2 with frames := st.2.frames.filter (fun r => r.interval_id ≠ iid) })
  | .insEdge r => (st.1, { st.2 with edges := st.2.edges ++ [r] })
  | .insCommunity r => (st.1, { st.2 with communities := st.2.communities ++ [r] })
  | .insPosition r => (st.1, { st.2 with positions := st.2.positions ++ [r] })
  | .insPosHist r => (st.1, { st.2 with posHistory := st.2.posHistory ++ [r] })
  | .insFrame r => (st.1, { st.2 with frames := st.2.frames ++ [r] })
  | .commit => (st.2, st.2)

/-- The committed store after `save_frame` dies having executed exactly the
first `k` primitive operations (a crash inside the call rolls the open
transaction back, keeping the committed state). -/
def saveFrameCrash {α : Type} (store0 : Store α) (interval : IntervalRec)
    (frame_data : FrameData α) (timeframe_window : ℤ) (k : ℕ) : Store α :=
  (((saveFrameOps interval frame_data timeframe_window).take k).foldl
    applySaveOp (store0, store0)).1

/-- The derived state for one interval: its `Edge`, `Community`, `Position`
and `Frame` rows (the rows the claim ranges over). -/
def derivedFor {α : Type} (iid : ℤ) (s : Store α) :
    List (EdgeRow α) × List CommunityRow × List (PositionRec α) × List (FrameRow α) :=
  (s.edges.filter (fun r => r.interval_id = iid),
   s.communities.filter (fun r => r.interval_id = iid),
   s.positions.filter (fun r => r.interval_id = iid),
   s.frames.filter (fun r => r.interval_id = iid))

/-- The derived rows a completed `save_frame` leaves for the interval. -/
def newDerived {α : Type} (interval : IntervalRec) (frame_data : FrameData α)
    (timeframe_window : ℤ) :
    List (EdgeRow α) × List CommunityRow × List (PositionRec α) × List (FrameRow α) :=
  let iid := interval.interval_id
  (frame_data.edges.map (fun e =>
      { interval_id := iid, src_id := e.source, dst_id := e.target,
        edge_type := e.etype, weight := e.weight }),
   frame_data.nodes.map (fun n =>
      { interval_id := iid, account_id := n.id, community_id := n.community }),
   frame_data.nodes.map (fun n =>
      { interval_id := iid, account_id := n.id, x := n.x, y := n.y, z := n.z }),
   [{ interval_id := iid, timeframe_window := timeframe_window,
      frame := frame_data, node_count := frame_data.stats.nodeCount,
      edge_count := frame_data.stats.edgeCount }])

/-! ### Interpolation (`api.interpolate_frame`, api.py:437-528) -/

/-- `{n["id"]: (n["x"], n["y"], n["z"]) for n in frame["nodes"]}`
(later duplicates overwrite). -/
def posMapOf {α : Type} (nodes : List (FrameNodeRec α)) :
    List (String × (α × α × α)) :=
  nodes.foldl (fun acc n => setAL n.id (n.x, n.y, n.z) acc) []

structure InterpolatedFrame (α : Type) where
  interval_id : ℤ
  timeframe_days : ℤ
  progress : α
  nodes : List (FrameNodeRec α)
  edges : List (FrameEdgeRec α)
  communities : List ℕ
  stats : FrameStats
  deriving DecidableEq

/-- The per-node body of the interpolation loop (api.py:473-510): linearly
interpolate the position over the id union, take node data from the `to`
frame first, and recompute `isNew` as absence from the `from` frame. -/
def interpNodeStep {α : Type} [LinearOrderedField α] [FloorRing α]
    (from_frame to_frame : FrameData α) (progress : α)
    (acc : List (FrameNodeRec α)) (node_id : String) :
    List (FrameNodeRec α) :=
  let from_positions := posMapOf from_frame.nodes
  let to_positions := posMapOf to_frame.nodes
  let coords : Option (α × α × α) :=
    match lookupAL node_id from_positions, lookupAL node_id to_positions with
    | some f, some t =>
        some (f.1 + (t.1 - f.1) * progress, f.2.1 + (t.2.1 - f.2.1) * progress,
          f.2.2 + (t.2.2 - f.2.2) * progress)
    | some f, none => some f
    | none, some t => some t
    | none, none => none
  match coords with
  | none => acc
  | some c =>
      match (to_frame.nodes.find? (fun n => n.id = node_id)).orElse
          (fun _ => from_frame.nodes.find? (fun n => n.id = node_id)) with
      | none => acc
      | some nd =>
          let nd2 : FrameNodeRec α :=
            { nd with
              x := round2 c.1
              y := round2 c.2.1
              z := round2 c.2.2
              isNew := (lookupAL node_id from_positions).isNone }
          acc ++ [nd2]

/-- `interpolate_frame` (api.py:437-528): clamp progress, interpolate nodes
over the id union, take edges from the closer frame, and recompute
communities and stats from the interpolated nodes. -/
def interpolateFrame {α : Type} [LinearOrderedField α] [FloorRing α]
    (from_interval_id to_interval_id : ℤ) (timeframe_window : ℤ)
    (from_frame to_frame : FrameData α) (progress0 : α) :
    InterpolatedFrame α :=
  let progress := max 0 (min 1 progress0)
  let all_node_ids := collectDistinct
    (from_frame.nodes.map (·.id) ++ to_frame.nodes.map (·.id))
  let interpolated_nodes :=
    all_node_ids.foldl (interpNodeStep from_frame to_frame progress) []
  let edges := if 1 / 2 < progress then to_frame.edges else from_frame.edges
  let communities := collectDistinct (interpolated_nodes.map (·.community))
  { interval_id := if 1 / 2 < progress then to_interval_id else from_interval_id
    timeframe_days := timeframe_window
    progress := progress
    nodes := interpolated_nodes
    edges := edges
    communities := communities
    stats := { nodeCount := interpolated_nodes.length
               edgeCount := edges.length
               communityCount := communities.length
               newFollowers := (interpolated_nodes.filter (·.isNew)).length } }

/-! ### Concrete fixtures for executable checks -/

/-- A concrete environment over `ℚ` (the environment functions are free
parameters of the model; executable checks may pick any instantiation). -/
def trivEnv : Env ℚ :=
  { log1p := id, sqrtF := id, cosF := fun _ => 0, sinF := fun _ => 0,
    piF := 0, uniform := fun lo _ => lo, hashF := fun _ => 0, now := 0 }

/-- A bare `GraphNode` over `ℚ` (dataclass defaults). -/
def mkNode (aid : String) : GraphNode ℚ :=
  { account_id := aid, followers_count := 0, importance := 0, community_id := 0,
    x := 0, y := 0, z := 0, is_new := false, is_ego := false }

/-- A concrete node with 1000 followers (passes the min-followers filter). -/
def c3Node (aid : String) : GraphNode ℚ :=
  { account_id := aid, followers_count := 1000, importance := 0, community_id := 0,
    x := 0, y := 0, z := 0, is_new := false, is_ego := false }

/-- 51 leaf ids `l0 … l50`. -/
def c3Leaves : List String := (List.range 51).map (fun i => "l" ++ toString i)

/-- A star: hub `h` plus the 51 leaves. -/
def c3Nodes : List (String × GraphNode ℚ) :=
  ("h", c3Node "h") :: c3Leaves.map (fun s => (s, c3Node s))

/-- One unit-weight edge from the hub to each leaf. -/
def c3Edges : List (GraphEdge ℚ) :=
  c3Leaves.map (fun s =>
    { src_id := "h", dst_id := s, edge_type := "direct_interaction", weight := 1 })

/-- The `Edge` row `save_frame` inserts for one frame edge. -/
def sfEdgeRow {α : Type} (iid : ℤ) (e : FrameEdgeRec α) : EdgeRow α :=
  { interval_id := iid, src_id := e.source, dst_id := e.target,
    edge_type := e.etype, weight := e.weight }

/-- The `Community` row `save_frame` inserts for one frame node. -/
def sfCommunityRow {α : Type} (iid : ℤ) (n : FrameNodeRec α) : CommunityRow :=
  { interval_id := iid, account_id := n.id, community_id := n.community }

/-- The `Position` row `save_frame` inserts for one frame node. -/
def sfPositionRow {α : Type} (iid : ℤ) (n : FrameNodeRec α) : PositionRec α :=
  { interval_id := iid, account_id := n.id, x := n.x, y := n.y, z := n.z }

/-- The `PositionHistory` row `save_frame` inserts for one frame node. -/
def sfPosHistRow {α : Type} (iid : ℤ) (n : FrameNodeRec α) : PosHistRow α :=
  { interval_id := iid, account_id := n.id, x := n.x, y := n.y, z := n.z,
    source := "frame_build" }

/-- The `Frame` row `save_frame` inserts. -/
def sfFrameRow {α : Type} (itv : IntervalRec) (fd : FrameData α) (tf : ℤ) :
    FrameRow α :=
  { interval_id := itv.interval_id, timeframe_window := tf, frame := fd,
    node_count := fd.stats.nodeCount, edge_count := fd.stats.edgeCount }

/-- The delete-then-commit prefix of the `save_frame` trace. -/
def sfPre5 {α : Type} (itv : IntervalRec) : List (SaveOp α) :=
  [.delEdges itv.interval_id, .delCommunities itv.interval_id,
   .delPositions itv.interval_id, .delFrames itv.interval_id, .commit]

/-- The edge-insert segment of the `save_frame` trace. -/
def sfEdgeOps {α : Type} (itv : IntervalRec) (fd : FrameData α) :
    List (SaveOp α) :=
  fd.edges.map (fun e => .insEdge (sfEdgeRow itv.interval_id e))

/-- The per-node insert segment of the `save_frame` trace. -/
def sfNodeOps {α : Type} (itv : IntervalRec) (fd : FrameData α) :
    List (SaveOp α) :=
  fd.nodes.flatMap (fun n =>
    [.insCommunity (sfCommunityRow itv.interval_id n),
     .insPosition (sfPositionRow itv.interval_id n),
     .insPosHist (sfPosHistRow itv.interval_id n)])

/-- The frame-insert-then-commit suffix of the `save_frame` trace. -/
def sfLast2 {α : Type} (itv : IntervalRec) (fd : FrameData α) (tf : ℤ) :
    List (SaveOp α) :=
  [.insFrame (sfFrameRow itv fd tf), .commit]

/-- The store state `save_frame` commits after its four deletes
(frame_builder.py:1103-1107): the interval's `Edge`, `Community`, `Position`
and `Frame` rows are gone, `PositionHistory` is untouched. -/
def sfDeleted {α : Type} (iid : ℤ) (s : Store α) : Store α :=
  { edges := s.edges.filter (fun r => r.interval_id ≠ iid),
    communities := s.communities.filter (fun r => r.interval_id ≠ iid),
    positions := s.positions.filter (fun r => r.interval_id ≠ iid),
    posHistory := s.posHistory,
    frames := s.frames.filter (fun r => r.interval_id ≠ iid) }

/-- A store holding one pre-existing edge row for interval 1. -/
def c9Store : Store ℚ :=
  { edges := [{ interval_id := 1, src_id := "a", dst_id := "b",
                edge_type := "t", weight := 1 }] }

def c9Interval : IntervalRec :=
  { interval_id := 1, snapshot_start_id := 1, snapshot_end_id := 2,
    start_at := some 0, end_at := some 86400,
    new_followers_count := 0, lost_followers_count := 0 }

/-- A minimal complete frame for interval 1. -/
def c9Frame : FrameData ℚ :=
  { interval_id := 1, timeframe_days := 30, timestamp := 86400,
    nodes := [{ id := "a", handle := none, name := none, avatar := none,
                followers := 0, importance := 0, community := 0,
                x := 0, y := 0, z := 0, isNew := false, isEgo := true }],
    edges := [{ source := "a", target := "b", etype := "direct", weight := 1 }],
    communities := [0],
    stats := { nodeCount := 1, edgeCount := 1, communityCount := 1,
               newFollowers := 0 } }

/-! # Theorems -/

/-! ## Association-list and helper lemmas -/

theorem lookupAL_setAL_self {κ α : Type} [DecidableEq κ] (k : κ) (v : α)
    (l : List (κ × α)) : lookupAL k (setAL k v l) = some v := by
  induction l with
  | nil => simp [setAL, updAL, lookupAL]
  | cons p rest ih =>
    by_cases h : p.1 = k
    · simp [setAL, updAL, h, lookupAL]
    · simpa [setAL, updAL, h, lookupAL] using ih

theorem round2_zero {α : Type} [LinearOrderedField α] [FloorRing α] :
    round2 (0 : α) = 0 := by
  simp [round2, roundHalfEven]

theorem snapshotIdList_nodup (s : SnapshotRec) : (snapshotIdList s).Nodup :=
  ((List.perm_insertionSort _ _).nodup_iff).mpr (List.nodup_dedup _)

theorem mem_snapshotIdList (s : SnapshotRec) (a : String) :
    a ∈ snapshotIdList s ↔ a ∈ snapshotIdSet s := by
  unfold snapshotIdList snapshotIdSet
  rw [(List.perm_insertionSort _ _).mem_iff, List.mem_dedup, List.mem_toFinset]

/-! ## C1 : `compute_interval_diff` -/

/-- **C1.** For snapshots of the same kind, `compute_interval_diff` creates an
`Interval` carrying the two snapshot references and their capture timestamps,
with `new_followers_count = |A_end \ A_start|` and
`lost_followers_count = |A_start \ A_end|`, and writes exactly one `new`
`FollowEvent` per element of `A_end \ A_start` and exactly one `lost`
`FollowEvent` per element of `A_start \ A_end`; for differing kinds it fails
with the kind-mismatch `CollectorError` and creates nothing. -/
theorem computeIntervalDiff_spec (fid : ℤ) (s e : SnapshotRec) :
    (s.kind ≠ e.kind →
      computeIntervalDiff fid s e = .error "Cannot diff snapshots of different kinds")
    ∧ (s.kind = e.kind →
      ∃ iv evs, computeIntervalDiff fid s e = .ok (iv, evs)
        ∧ iv.snapshot_start_id = s.snapshot_id
        ∧ iv.snapshot_end_id = e.snapshot_id
        ∧ iv.start_at = some s.captured_at
        ∧ iv.end_at = some e.captured_at
        ∧ iv.new_followers_count = (snapshotIdSet e \ snapshotIdSet s).card
        ∧ iv.lost_followers_count = (snapshotIdSet s \ snapshotIdSet e).card
        ∧ (∀ a : String,
            evs.count { interval_id := fid, account_id := a, kind := "new" }
              = if a ∈ snapshotIdSet e \ snapshotIdSet s then 1 else 0)
        ∧ (∀ a : String,
            evs.count { interval_id := fid, account_id := a, kind := "lost" }
              = if a ∈ snapshotIdSet s \ snapshotIdSet e then 1 else 0)) := by
  constructor
  · intro hne
    simp [computeIntervalDiff, hne]
  · intro heq
    have hnewList : ((snapshotIdList e).filter (fun a => a ∉ snapshotIdList s)).Nodup :=
      (snapshotIdList_nodup e).filter _
    have hlostList : ((snapshotIdList s).filter (fun a => a ∉ snapshotIdList e)).Nodup :=
      (snapshotIdList_nodup s).filter _
    have hmemNew : ∀ a : String,
        a ∈ (snapshotIdList e).filter (fun a => a ∉ snapshotIdList s)
          ↔ a ∈ snapshotIdSet e \ snapshotIdSet s := by
      intro a
      simp [List.mem_filter, mem_snapshotIdList, Finset.mem_sdiff]
    have hmemLost : ∀ a : String,
        a ∈ (snapshotIdList s).filter (fun a => a ∉ snapshotIdList e)
          ↔ a ∈ snapshotIdSet s \ snapshotIdSet e := by
      intro a
      simp [List.mem_filter, mem_snapshotIdList, Finset.mem_sdiff]
    have hlenNew :
        ((snapshotIdList e).filter (fun a => a ∉ snapshotIdList s)).length
          = (snapshotIdSet e \ snapshotIdSet s).card := by
      rw [← List.toFinset_card_of_nodup hnewList]
      congr 1
      ext a
      rw [List.mem_toFinset]
      exact hmemNew a
    have hlenLost :
        ((snapshotIdList s).filter (fun a => a ∉ snapshotIdList e)).length
          = (snapshotIdSet s \ snapshotIdSet e).card := by
      rw [← List.toFinset_card_of_nodup hlostList]
      congr 1
      ext a
      rw [List.mem_toFinset]
      exact hmemLost a
    refine ⟨{ interval_id := fid, snapshot_start_id := s.snapshot_id,
              snapshot_end_id := e.snapshot_id, start_at := some s.captured_at,
              end_at := some e.captured_at,
              new_followers_count :=
                ((snapshotIdList e).filter (fun a => a ∉ snapshotIdList s)).length,
              lost_followers_count :=
                ((snapshotIdList s).filter (fun a => a ∉ snapshotIdList e)).length },
            ((snapshotIdList e).filter (fun a => a ∉ snapshotIdList s)).map
              (fun a => { interval_id := fid, account_id := a, kind := "new" })
            ++ ((snapshotIdList s).filter (fun a => a ∉ snapshotIdList e)).map
              (fun a => { interval_id := fid, account_id := a, kind := "lost" }),
            ?_, rfl, rfl, rfl, rfl,
            by exact congrArg (fun n : ℕ => (n : ℤ)) hlenNew,
            by exact congrArg (fun n : ℕ => (n : ℤ)) hlenLost,
            ?_, ?_⟩
    · simp [computeIntervalDiff, heq]
    · intro a
      have hinj : Function.Injective
          (fun a : String =>
            ({ interval_id := fid, account_id := a, kind := "new" } : FollowEventRec)) := by
        intro x y hxy
        simpa using congrArg FollowEventRec.account_id hxy
      rw [List.count_append, List.count_map_of_injective _ _ hinj]
      have hzero : List.count
          ({ interval_id := fid, account_id := a, kind := "new" } : FollowEventRec)
          (((snapshotIdList s).filter (fun a => a ∉ snapshotIdList e)).map
            (fun a => ({ interval_id := fid, account_id := a, kind := "lost" } : FollowEventRec))) = 0 := by
        refine List.count_eq_zero_of_not_mem ?_
        simp [List.mem_map]
      rw [hzero, Nat.add_zero]
      by_cases hmem : a ∈ snapshotIdSet e \ snapshotIdSet s
      · rw [if_pos hmem]
        exact List.count_eq_one_of_mem hnewList ((hmemNew a).mpr hmem)
      · rw [if_neg hmem]
        exact List.count_eq_zero_of_not_mem (fun hc => hmem ((hmemNew a).mp hc))
    · intro a
      have hinj : Function.Injective
          (fun a : String =>
            ({ interval_id := fid, account_id := a, kind := "lost" } : FollowEventRec)) := by
        intro x y hxy
        simpa using congrArg FollowEventRec.account_id hxy
      rw [List.count_append, List.count_map_of_injective _ _ hinj]
      have hzero : List.count
          ({ interval_id := fid, account_id := a, kind := "lost" } : FollowEventRec)
          (((snapshotIdList e).filter (fun a => a ∉ snapshotIdList s)).map
            (fun a => ({ interval_id := fid, account_id := a, kind := "new" } : FollowEventRec))) = 0 := by
        refine List.count_eq_zero_of_not_mem ?_
        simp [List.mem_map]
      rw [hzero, Nat.zero_add]
      by_cases hmem : a ∈ snapshotIdSet s \ snapshotIdSet e
      · rw [if_pos hmem]
        exact List.count_eq_one_of_mem hlostList ((hmemLost a).mpr hmem)
      · rw [if_neg hmem]
        exact List.count_eq_zero_of_not_mem (fun hc => hmem ((hmemLost a).mp hc))

/-- Witness for C1 at the spec's literal scenario: follower snapshots
`{a,b,c}` then `{b,c,d,e}` give `new = {d,e}` and `lost = {a}`. -/
theorem computeIntervalDiff_spec_witness :
    let s1 : SnapshotRec :=
      { snapshot_id := 1, captured_at := 100, kind := "followers",
        followers := ["a", "b", "c"] }
    let s2 : SnapshotRec :=
      { snapshot_id := 2, captured_at := 200, kind := "followers",
        followers := ["b", "c", "d", "e"] }
    s1.kind = s2.kind
      ∧ ∃ iv evs, computeIntervalDiff 7 s1 s2 = .ok (iv, evs)
        ∧ iv.snapshot_start_id = s1.snapshot_id
        ∧ iv.snapshot_end_id = s2.snapshot_id
        ∧ iv.start_at = some s1.captured_at
        ∧ iv.end_at = some s2.captured_at
        ∧ iv.new_followers_count = (snapshotIdSet s2 \ snapshotIdSet s1).card
        ∧ iv.lost_followers_count = (snapshotIdSet s1 \ snapshotIdSet s2).card
        ∧ (∀ a : String,
            evs.count { interval_id := 7, account_id := a, kind := "new" }
              = if a ∈ snapshotIdSet s2 \ snapshotIdSet s1 then 1 else 0)
        ∧ (∀ a : String,
            evs.count { interval_id := 7, account_id := a, kind := "lost" }
              = if a ∈ snapshotIdSet s1 \ snapshotIdSet s2 then 1 else 0) := by
  exact ⟨rfl, (computeIntervalDiff_spec 7 _ _).2 rfl⟩

/-! ## C4 : `collect_followers` and `follow_position` -/

/-- **C4.** The `SnapshotFollower` model class declares no `follow_position`
column, so the row construction in `collect_followers` raises `TypeError` for
every follower processed: the collection run fails as soon as any follower is
returned, and no membership rows carrying positions are ever written.  The
traversal itself (third conjunct) does assign the contiguous positions
`0, 1, …, N-1` across all pages that the claim describes, so the claim matches
the code's evident intent and the schema is the slip. -/
theorem collectFollowers_schema_failure :
    collectFollowers ["u1"] [["u1"]]
      = .error "follow_position is an invalid keyword argument for SnapshotFollower"
    ∧ (∀ (existingAccountIds : List String) (pages : List (List String)),
        pages.flatten ≠ [] →
          ∃ msg, collectFollowers existingAccountIds pages = .error msg)
    ∧ (∀ pages : List (List String),
        (collectFollowersIntended pages).map Prod.snd
          = List.range pages.flatten.length) := by
  refine ⟨rfl, ?_, ?_⟩
  · intro ex pages hne
    unfold collectFollowers
    cases hflat : pages.flatten with
    | nil => exact absurd hflat hne
    | cons u rest =>
      by_cases hmem : u ∈ ex
      · refine ⟨"follow_position is an invalid keyword argument for SnapshotFollower", ?_⟩
        simp [collectFollowersUsers, upsertAccount, hmem, declarativeConstruct,
          snapshotFollowerClassAttrs, snapshotFollowerCtorKwargs, List.find?,
          Bind.bind, Except.bind]
      · refine ⟨"cover_url is an invalid keyword argument for Account", ?_⟩
        simp [collectFollowersUsers, upsertAccount, hmem, declarativeConstruct,
          accountClassAttrs, accountCtorKwargs, List.find?, Bind.bind, Except.bind]
  · intro pages
    unfold collectFollowersIntended
    rw [List.map_map]
    exact List.enum_map_fst _

/-- Witness for C4 on a concrete non-empty page list. -/
theorem collectFollowers_schema_failure_witness :
    ([["a"], ["b"]] : List (List String)).flatten ≠ []
      ∧ ∃ msg, collectFollowers [] [["a"], ["b"]] = .error msg :=
  ⟨by decide, collectFollowers_schema_failure.2.1 [] [["a"], ["b"]] (by decide)⟩

/-! ## C5 : `compute_recency_decay` -/

/-- **C5.** `compute_recency_decay` is `2 ^ (-Δdays / 14)` with `Δdays`
computed from seconds; null arguments give 1, `Δdays = 0` gives 1, future
events give 1, and at `Δdays = 14` the value is `0.5` within 1%. -/
theorem computeRecencyDecay_spec :
    (∀ t r : ℤ, t ≤ r →
      computeRecencyDecay (some t) (some r)
        = (2 : ℝ) ^ (-(((r - t : ℤ) : ℝ) / 86400) / 14))
    ∧ (∀ r, computeRecencyDecay none r = 1)
    ∧ (∀ t, computeRecencyDecay t none = 1)
    ∧ (∀ t : ℤ, computeRecencyDecay (some t) (some t) = 1)
    ∧ (∀ t r : ℤ, r < t → computeRecencyDecay (some t) (some r) = 1)
    ∧ (∀ t r : ℤ, r - t = 14 * 86400 →
        |computeRecencyDecay (some t) (some r) - 1 / 2| ≤ 1 / 200) := by
  have hbase : ∀ t r : ℤ, t ≤ r →
      computeRecencyDecay (some t) (some r)
        = (2 : ℝ) ^ (-(((r - t : ℤ) : ℝ) / 86400) / 14) := by
    intro t r htr
    have hnonneg : (0 : ℝ) ≤ ((r - t : ℤ) : ℝ) / 86400 := by
      apply div_nonneg _ (by norm_num)
      exact_mod_cast Int.sub_nonneg.mpr htr
    simp only [computeRecencyDecay, recencyDecayHalfLifeDays]
    rw [if_neg (not_lt.mpr hnonneg)]
  refine ⟨hbase, fun r => ?_, fun t => ?_, fun t => ?_, fun t r hlt => ?_, fun t r h14 => ?_⟩
  · cases r <;> simp [computeRecencyDecay]
  · cases t <;> simp [computeRecencyDecay]
  · rw [hbase t t le_rfl]
    norm_num
  · have hneg : ((r - t : ℤ) : ℝ) / 86400 < 0 := by
      apply div_neg_of_neg_of_pos _ (by norm_num)
      exact_mod_cast sub_neg.mpr (by exact_mod_cast hlt)
    simp only [computeRecencyDecay, recencyDecayHalfLifeDays]
    rw [if_pos hneg]
  · have htr : t ≤ r := by omega
    rw [hbase t r htr]
    have hexp : (-(((r - t : ℤ) : ℝ) / 86400) / 14) = (-1 : ℝ) := by
      rw [h14]
      norm_num
    rw [hexp]
    have h2 : (2 : ℝ) ^ (-1 : ℝ) = 1 / 2 := by
      rw [show (-1 : ℝ) = ((-1 : ℤ) : ℝ) by norm_num, Real.rpow_intCast]
      norm_num
    rw [h2]
    norm_num

/-! ## C10 : the empty-frame path of `build_frame` -/

/-- **C10.** When the cumulative follower and following membership up to the
interval's end is empty and no ego id is supplied, `build_frame` returns the
empty frame structure — empty node, edge and community lists and all-zero
stats — carrying the interval's id and end timestamp, instead of raising. -/
theorem buildFrame_empty_membership {α : Type} [LinearOrderedField α]
    (env : Env α) (db : Db α) (itv : IntervalRec) (timeframe_days t : ℤ)
    (hend : itv.end_at = some t)
    (hfollower : followerIdsUpTo db t = [])
    (hfollowing : followingIdsUpTo db t = []) :
    buildFrame env db (some itv) timeframe_days none
      = .ok { interval_id := itv.interval_id, timeframe_days := timeframe_days,
              timestamp := t, ego_id := none, nodes := [], edges := [],
              communities := [],
              stats := { nodeCount := 0, edgeCount := 0, communityCount := 0,
                         newFollowers := 0 } } := by
  simp [buildFrame, hend, hfollower, hfollowing, collectDistinct, emptyFrame]

/-- Witness for C10: a store with one snapshot captured after the interval's
end contributes no cumulative membership, and the empty frame is returned. -/
theorem buildFrame_empty_membership_witness :
    let itv : IntervalRec :=
      { interval_id := 3, snapshot_start_id := 1, snapshot_end_id := 2,
        start_at := some 0, end_at := some 100, new_followers_count := 0,
        lost_followers_count := 0 }
    let db : Db ℚ :=
      { snapshots := [{ snapshot_id := 9, captured_at := 500, kind := "followers",
                        followers := ["late"] }] }
    itv.end_at = some 100
      ∧ followerIdsUpTo db 100 = []
      ∧ followingIdsUpTo db 100 = []
      ∧ buildFrame trivEnv db (some itv) 30 none
          = .ok { interval_id := 3, timeframe_days := 30, timestamp := 100,
                  ego_id := none, nodes := [], edges := [], communities := [],
                  stats := { nodeCount := 0, edgeCount := 0, communityCount := 0,
                             newFollowers := 0 } } := by
  exact ⟨rfl, rfl, rfl, buildFrame_empty_membership trivEnv _ _ 30 100 rfl rfl rfl⟩

/-! ## C7 : the ego pin at the origin -/

/-- **C7 (code_bug).**  The layout functions do pin the ego at the origin:
`force_directed_layout` pins it before the loop, re-pins it on every
iteration (`fdlStep` sets the ego back to the origin in its movement phase)
and pins it after the loop, and `compute_positions` inherits this — the
second and third conjuncts show the returned position of the ego is exactly
`(0,0,0)` for *all* inputs.  But no frame with a node set can be built at
all: `build_frame` executes `from .models import NetworkConnection` on every
non-empty path and `models.py` defines no such class, so the call raises
`ImportError` (first conjunct evaluates the failing input: one follower
membership row and an ego id). -/
theorem egoPinnedAtOrigin :
    (buildFrame trivEnv
        { accounts :=
            [{ account_id := "f1", followers_count := some 1000 },
             { account_id := "E", followers_count := some 50 }],
          snapshots := [{ snapshot_id := 1, captured_at := 50, kind := "followers",
                          followers := ["f1"] }] }
        (some { interval_id := 1, snapshot_start_id := 1, snapshot_end_id := 2,
                start_at := some 0, end_at := some 100,
                new_followers_count := 0, lost_followers_count := 0 })
        30 (some "E")
      = .error "ImportError: cannot import name NetworkConnection from social_graph.models")
    ∧ (∀ {α : Type} [LinearOrderedField α] (env : Env α)
        (nodes : List (GraphNode α)) (edges : List (GraphEdge α))
        (initial_positions : List (String × (α × α × α)))
        (max_iterations : ℕ) (cooling_factor : α) (e : String),
        lookupAL e (forceDirectedLayout env nodes edges initial_positions
          max_iterations cooling_factor (some e)) = some (0, 0, 0))
    ∧ (∀ {α : Type} [LinearOrderedField α] (env : Env α) (db : Db α)
        (interval : IntervalRec) (nodes : List (GraphNode α))
        (edges : List (GraphEdge α)) (communities : List (String × ℕ))
        (e : String),
        lookupAL e (computePositions env db interval nodes edges communities
          (some e)) = some (0, 0, 0)) := by
  refine ⟨rfl, ?_, ?_⟩
  · intro α _ env nodes edges init iters cooling e
    simp only [forceDirectedLayout]
    exact lookupAL_setAL_self e (0, 0, 0) _
  · intro α _ env db interval nodes edges communities e
    simp only [computePositions, forceDirectedLayout]
    exact lookupAL_setAL_self e (0, 0, 0) _

/-! ## Association-list update lemmas -/

theorem lookupAL_updAL_self {κ α : Type} [DecidableEq κ] (k : κ) (dflt : α)
    (f : α → α) (l : List (κ × α)) :
    lookupAL k (updAL k dflt f l) = some (f ((lookupAL k l).getD dflt)) := by
  induction l with
  | nil => simp [updAL, lookupAL]
  | cons p rest ih =>
    rcases p with ⟨k2, v⟩
    by_cases h : k2 = k
    · simp [updAL, h, lookupAL]
    · simp [updAL, h, lookupAL, ih]

theorem lookupAL_updAL_ne {κ α : Type} [DecidableEq κ] {k2 k : κ} (h : k2 ≠ k)
    (dflt : α) (f : α → α) (l : List (κ × α)) :
    lookupAL k (updAL k2 dflt f l) = lookupAL k l := by
  induction l with
  | nil => simp [updAL, lookupAL, h]
  | cons p rest ih =>
    rcases p with ⟨k3, v⟩
    by_cases h3 : k3 = k2
    · subst h3
      simp [updAL, lookupAL, h]
    · by_cases h4 : k3 = k
      · subst h4
        simp [updAL, h3, lookupAL]
      · simp [updAL, h3, lookupAL, h4, ih]

theorem lookupAL_bumpAL_self {κ α : Type} [DecidableEq κ] [Add α] [Zero α]
    (k : κ) (w : α) (l : List (κ × α)) :
    lookupAL k (bumpAL k w l) = some ((lookupAL k l).getD 0 + w) :=
  lookupAL_updAL_self k 0 (· + w) l

theorem lookupAL_bumpAL_ne {κ α : Type} [DecidableEq κ] [Add α] [Zero α]
    {k2 k : κ} (h : k2 ≠ k) (w : α) (l : List (κ × α)) :
    lookupAL k (bumpAL k2 w l) = lookupAL k l :=
  lookupAL_updAL_ne h 0 (· + w) l

theorem lookupAL_mem {κ α : Type} [DecidableEq κ] {k : κ} {v : α} :
    ∀ {l : List (κ × α)}, lookupAL k l = some v → (k, v) ∈ l := by
  intro l
  induction l with
  | nil => intro h; simp [lookupAL] at h
  | cons p rest ih =>
    rcases p with ⟨k2, v2⟩
    intro h
    by_cases h2 : k2 = k
    · subst h2
      simp [lookupAL] at h
      simp [h]
    · simp [lookupAL, h2] at h
      exact List.mem_cons_of_mem _ (ih h)

/-- The running total held by a `defaultdict(float)` after folding `bump`
updates: the entry at key `k` is the sum of the contributions whose key is
`k`. -/
theorem lookupAL_foldl_bumpAL {κ β : Type} {α : Type} [DecidableEq κ]
    [AddCommMonoid α] (key : β → κ) (contrib : β → α) (k : κ) :
    ∀ (l : List β) (acc : List (κ × α)),
      (l.filter (fun e => key e = k) = [] →
        lookupAL k (l.foldl (fun a e => bumpAL (key e) (contrib e) a) acc)
          = lookupAL k acc)
      ∧ (l.filter (fun e => key e = k) ≠ [] →
        lookupAL k (l.foldl (fun a e => bumpAL (key e) (contrib e) a) acc)
          = some ((lookupAL k acc).getD 0
              + ((l.filter (fun e => key e = k)).map contrib).sum)) := by
  intro l
  induction l with
  | nil => exact fun acc => ⟨fun _ => rfl, fun h => absurd rfl h⟩
  | cons e rest ih =>
    intro acc
    constructor
    · intro hnil
      rw [List.filter_cons] at hnil
      by_cases hk : key e = k
      · simp [hk] at hnil
      · simp only [hk, decide_False, Bool.false_eq_true, if_false] at hnil
        rw [List.foldl_cons,
          (ih (bumpAL (key e) (contrib e) acc)).1 (by simpa [hk] using hnil)]
        exact lookupAL_bumpAL_ne hk _ _
    · intro hne2
      rw [List.foldl_cons]
      by_cases hk : key e = k
      · by_cases hrest : rest.filter (fun x => key x = k) = []
        · rw [(ih (bumpAL (key e) (contrib e) acc)).1 hrest, hk,
            lookupAL_bumpAL_self]
          simp [List.filter_cons, hk, hrest]
        · rw [(ih (bumpAL (key e) (contrib e) acc)).2 hrest, hk,
            lookupAL_bumpAL_self]
          simp [List.filter_cons, hk, hrest, add_assoc]
      · have hrest : rest.filter (fun x => key x = k) ≠ [] := by
          intro hnil
          apply hne2
          simp [List.filter_cons, hk, hnil]
        rw [(ih (bumpAL (key e) (contrib e) acc)).2 hrest,
          lookupAL_bumpAL_ne hk]
        simp [List.filter_cons, hk]

/-- A fold whose step preserves a property of every accumulated element. -/
theorem foldl_mem_invariant {σ β : Type} (P : β → Prop)
    (step : List β → σ → List β)
    (hstep : ∀ acc x, (∀ e ∈ acc, P e) → ∀ e ∈ step acc x, P e) :
    ∀ (l : List σ) (acc : List β), (∀ e ∈ acc, P e) →
      ∀ e ∈ l.foldl step acc, P e := by
  intro l
  induction l with
  | nil => intro acc hacc e he; exact hacc e he
  | cons x rest ih =>
    intro acc hacc e he
    exact ih (step acc x) (hstep acc x hacc) e he

theorem tierEdgeType_mem (t : ℕ) :
    tierEdgeType t ∈ ["tier_1_ego", "tier_2_hub", "tier_3_bridge",
      "tier_4_cluster", "tier_5_outer", "tier_6_leaf"] := by
  unfold tierEdgeType
  split <;> simp

/-! ## C2 : the edge sources feeding `build_frame` -/

/-- **C2 (counterexample).**  An `InteractionEvent` lying inside the window
`[end - 30d, end]` contributes nothing to the frame built for that interval:
with no snapshot membership the frame is built successfully and has *no*
edges, while the standalone `build_edges_from_interactions` run on the same
store produces the direct-interaction edge. -/
theorem buildFrame_misses_interaction_edges :
    (buildFrame trivEnv
        { interactionEvents :=
            [{ interval_id := 1, created_at := 1000, src_id := "a",
               dst_id := "b", interaction_type := "reply" }] }
        (some { interval_id := 1, snapshot_start_id := 1, snapshot_end_id := 2,
                start_at := some 0, end_at := some 1000,
                new_followers_count := 0, lost_followers_count := 0 })
        30 none
      = .ok { interval_id := 1, timeframe_days := 30, timestamp := 1000,
              ego_id := none, nodes := [], edges := [], communities := [],
              stats := { nodeCount := 0, edgeCount := 0, communityCount := 0,
                         newFollowers := 0 } })
    ∧ ({ interval_id := 1, created_at := 1000, src_id := "a", dst_id := "b",
         interaction_type := "reply", post_id := none } : InteractionEventRec)
        ∈ eventsInWindow
            ({ interactionEvents :=
                [{ interval_id := 1, created_at := 1000, src_id := "a",
                   dst_id := "b", interaction_type := "reply" }] } : Db ℝ)
            { interval_id := 1, snapshot_start_id := 1, snapshot_end_id := 2,
              start_at := some 0, end_at := some 1000,
              new_followers_count := 0, lost_followers_count := 0 }
            30 none
    ∧ buildEdgesFromInteractions
        { interactionEvents :=
            [{ interval_id := 1, created_at := 1000, src_id := "a",
               dst_id := "b", interaction_type := "reply" }] }
        { interval_id := 1, snapshot_start_id := 1, snapshot_end_id := 2,
          start_at := some 0, end_at := some 1000,
          new_followers_count := 0, lost_followers_count := 0 }
        30 none
      = [{ src_id := "a", dst_id := "b", edge_type := "direct_interaction",
           weight := 4 * computeRecencyDecay (some 1000) (some 1000) }] := by
  refine ⟨rfl, by decide, ?_⟩
  simp [buildEdgesFromInteractions, buildEdgesFromInteractionsWith,
    eventsInWindow, resolveRef, bumpAL, updAL, lookupAL, edgeWeightBase]

/-- **C2 (amended).**  (1) Any frame `build_frame` actually returns has an
empty edge list (only the empty paths return; every non-empty path raises on
the missing `NetworkConnection` import).  (2) The tier-routing builder
`_build_network_edges` — the only edge source wired into `build_frame` —
emits only `tier_k` and `fallback_ego` edge types, never `direct_interaction`
or `co_engagement`.  (3) The standalone `build_edges_from_interactions` does
realise the spec formula: for every `InteractionEvent` in
`[end - timeframe_days, end]` it emits the `src → dst` direct-interaction
edge whose weight is the sum of `base_weight(type) × decay(created_at, end)`
over the events with that `(src, dst)`; but `build_frame` never invokes it. -/
theorem buildFrame_edge_sources :
    (∀ {α : Type} [LinearOrderedField α] (env : Env α) (db : Db α)
        (interval : Option IntervalRec) (timeframe_days : ℤ)
        (ego_id : Option String) (fr : FrameData α),
        buildFrame env db interval timeframe_days ego_id = .ok fr →
          fr.edges = [])
    ∧ (∀ {α : Type} [LinearOrderedField α] (db : Db α)
        (account_ids : List String) (ego_id : Option String)
        (mutual_ids : List String) (e : GraphEdge α),
        e ∈ networkEdges db account_ids ego_id mutual_ids →
          e.edge_type ∈ ["tier_1_ego", "tier_2_hub", "tier_3_bridge",
            "tier_4_cluster", "tier_5_outer", "tier_6_leaf", "fallback_ego"])
    ∧ (∀ {α : Type} [LinearOrderedField α] (decayF : ℤ → ℤ → α) (db : Db α)
        (interval : IntervalRec) (timeframe_days : ℤ)
        (reference_time : Option ℤ) (ev : InteractionEventRec),
        ev ∈ eventsInWindow db interval timeframe_days reference_time →
          ({ src_id := ev.src_id, dst_id := ev.dst_id,
             edge_type := "direct_interaction",
             weight := (((eventsInWindow db interval timeframe_days
                     reference_time).filter
                 (fun e2 => e2.src_id = ev.src_id ∧ e2.dst_id = ev.dst_id)).map
                 (fun e2 => edgeWeightBase e2.interaction_type
                   * decayF e2.created_at (resolveRef interval reference_time))).sum }
            : GraphEdge α)
            ∈ buildEdgesFromInteractionsWith decayF db interval timeframe_days
                reference_time) := by
  refine ⟨?_, ?_, ?_⟩
  · intro α _ env db interval timeframe_days ego_id fr h
    match interval with
    | none =>
        simp only [buildFrame] at h
        cases h
        rfl
    | some itv =>
        simp only [buildFrame] at h
        split at h
        · cases h
          rfl
        · cases h
  · intro α _ db account_ids ego_id mutual_ids e he
    have htypes : ∀ t : ℕ, tierEdgeType t ∈
        ["tier_1_ego", "tier_2_hub", "tier_3_bridge", "tier_4_cluster",
         "tier_5_outer", "tier_6_leaf", "fallback_ego"] := by
      intro t
      have h6 := tierEdgeType_mem t
      simp only [List.mem_cons, List.not_mem_nil, or_false] at h6 ⊢
      tauto
    simp only [networkEdges] at he
    refine foldl_mem_invariant
      (fun e2 : GraphEdge α => e2.edge_type ∈
        ["tier_1_ego", "tier_2_hub", "tier_3_bridge", "tier_4_cluster",
         "tier_5_outer", "tier_6_leaf", "fallback_ego"])
      _ ?_ [6, 5, 4, 3, 2, 1] []
      (fun e2 h => absurd h (List.not_mem_nil e2)) e he
    intro acc tier hacc e2 he2
    refine foldl_mem_invariant
      (fun e3 : GraphEdge α => e3.edge_type ∈
        ["tier_1_ego", "tier_2_hub", "tier_3_bridge", "tier_4_cluster",
         "tier_5_outer", "tier_6_leaf", "fallback_ego"])
      _ ?_ _ acc hacc e2 he2
    intro es aid hes e3 he3
    simp only at he3
    split at he3
    · exact hes _ he3
    · split at he3
      · split at he3
        · rcases List.mem_append.mp he3 with h3 | h3
          · exact hes _ h3
          · rw [List.mem_singleton] at h3
            subst h3
            exact htypes 1
        · exact hes _ he3
      · split at he3
        · rcases List.mem_append.mp he3 with h3 | h3
          · exact hes _ h3
          · rw [List.mem_singleton] at h3
            subst h3
            exact htypes _
        · split at he3
          · rcases List.mem_append.mp he3 with h3 | h3
            · exact hes _ h3
            · rw [List.mem_singleton] at h3
              subst h3
              exact htypes _
          · split at he3
            · split at he3
              · rcases List.mem_append.mp he3 with h3 | h3
                · exact hes _ h3
                · rw [List.mem_singleton] at h3
                  subst h3
                  simp
              · exact hes _ he3
            · exact hes _ he3
  · intro α _ decayF db interval timeframe_days reference_time ev hev
    classical
    have hkeyiff : ∀ e2 : InteractionEventRec,
        (((e2.src_id, e2.dst_id, "direct_interaction") : String × String × String)
            = (ev.src_id, ev.dst_id, "direct_interaction"))
          ↔ (e2.src_id = ev.src_id ∧ e2.dst_id = ev.dst_id) := by
      intro e2
      constructor
      · intro h
        exact ⟨congrArg (fun p : String × String × String => p.1) h,
          congrArg (fun p : String × String × String => p.2.1) h⟩
      · rintro ⟨h1, h2⟩
        rw [h1, h2]
    have hfilter :
        ((eventsInWindow db interval timeframe_days reference_time).filter
            (fun e2 =>
              ((e2.src_id, e2.dst_id, "direct_interaction") : String × String × String)
                = (ev.src_id, ev.dst_id, "direct_interaction")))
          = (eventsInWindow db interval timeframe_days reference_time).filter
              (fun e2 => e2.src_id = ev.src_id ∧ e2.dst_id = ev.dst_id) := by
      apply List.filter_congr
      intro e2 _
      simp [hkeyiff e2]
    have hne : ((eventsInWindow db interval timeframe_days reference_time).filter
        (fun e2 =>
          ((e2.src_id, e2.dst_id, "direct_interaction") : String × String × String)
            = (ev.src_id, ev.dst_id, "direct_interaction"))) ≠ [] := by
      rw [hfilter]
      intro hnil
      have hm : ev ∈ (eventsInWindow db interval timeframe_days
          reference_time).filter
            (fun e2 => e2.src_id = ev.src_id ∧ e2.dst_id = ev.dst_id) := by
        simp [List.mem_filter, hev]
      rw [hnil] at hm
      simp at hm
    have hlookup := (lookupAL_foldl_bumpAL
      (fun e2 : InteractionEventRec =>
        ((e2.src_id, e2.dst_id, "direct_interaction") : String × String × String))
      (fun e2 : InteractionEventRec =>
        edgeWeightBase e2.interaction_type
          * decayF e2.created_at (resolveRef interval reference_time))
      ((ev.src_id, ev.dst_id, "direct_interaction"))
      (eventsInWindow db interval timeframe_days reference_time) []).2 hne
    rw [hfilter] at hlookup
    simp only [lookupAL, Option.getD_none, zero_add] at hlookup
    have hmem := lookupAL_mem hlookup
    refine List.mem_map.mpr ⟨((ev.src_id, ev.dst_id, "direct_interaction"),
      _), hmem, rfl⟩

unseal Rat.add Rat.sub Rat.mul Rat.inv in
/-- Witness for C2 (amended): a built empty frame, a concrete tier edge, and
a concrete in-window interaction event. -/
theorem buildFrame_edge_sources_witness :
    (buildFrame trivEnv {} none 30 none
        = .ok (emptyFrame (α := ℚ) 0 30 none)
      ∧ (emptyFrame (α := ℚ) 0 30 none).edges = [])
    ∧ (({ src_id := "f1", dst_id := "h1", edge_type := "tier_6_leaf",
          weight := 1 / 5 } : GraphEdge ℚ)
        ∈ networkEdges
            ({ accounts := [{ account_id := "f1", followers_count := some 1000 },
                            { account_id := "h1", followers_count := some 3000 }] } : Db ℚ)
            ["f1", "h1"] none []
      ∧ "tier_6_leaf" ∈ ["tier_1_ego", "tier_2_hub", "tier_3_bridge",
          "tier_4_cluster", "tier_5_outer", "tier_6_leaf", "fallback_ego"])
    ∧ (({ interval_id := 1, created_at := 40, src_id := "a", dst_id := "b",
          interaction_type := "like", post_id := none } : InteractionEventRec)
        ∈ eventsInWindow
            ({ interactionEvents :=
                [{ interval_id := 1, created_at := 40, src_id := "a",
                   dst_id := "b", interaction_type := "like" }] } : Db ℚ)
            { interval_id := 1, snapshot_start_id := 1, snapshot_end_id := 2,
              start_at := some 0, end_at := some 50,
              new_followers_count := 0, lost_followers_count := 0 } 30 none
      ∧ ({ src_id := "a", dst_id := "b", edge_type := "direct_interaction",
           weight := 1 / 2 * 1 } : GraphEdge ℚ)
          ∈ buildEdgesFromInteractionsWith (fun _ _ => (1 : ℚ))
              ({ interactionEvents :=
                  [{ interval_id := 1, created_at := 40, src_id := "a",
                     dst_id := "b", interaction_type := "like" }] } : Db ℚ)
              { interval_id := 1, snapshot_start_id := 1, snapshot_end_id := 2,
                start_at := some 0, end_at := some 50,
                new_followers_count := 0, lost_followers_count := 0 } 30 none) := by
  refine ⟨⟨rfl, rfl⟩, ⟨by decide, by decide⟩, by decide, ?_⟩
  have h := buildFrame_edge_sources.2.2 (fun _ _ => (1 : ℚ))
    ({ interactionEvents :=
        [{ interval_id := 1, created_at := 40, src_id := "a",
           dst_id := "b", interaction_type := "like" }] } : Db ℚ)
    { interval_id := 1, snapshot_start_id := 1, snapshot_end_id := 2,
      start_at := some 0, end_at := some 50,
      new_followers_count := 0, lost_followers_count := 0 } 30 none
    ({ interval_id := 1, created_at := 40, src_id := "a", dst_id := "b",
       interaction_type := "like", post_id := none } : InteractionEventRec)
    (by decide)
  convert h using 2

/-! ## Lemmas on `collectDistinct`, `posMapOf` and folds -/

theorem lookupAL_setAL_ne {κ α : Type} [DecidableEq κ] {k2 k : κ} (h : k2 ≠ k)
    (v : α) (l : List (κ × α)) : lookupAL k (setAL k2 v l) = lookupAL k l :=
  lookupAL_updAL_ne h v (fun _ => v) l

theorem collectDistinct_foldl_subset {κ : Type} [DecidableEq κ] :
    ∀ (l : List κ) (acc : List κ), (∀ a ∈ l, a ∈ acc) →
      l.foldl (fun acc a => if a ∈ acc then acc else acc ++ [a]) acc = acc := by
  intro l
  induction l with
  | nil => intro acc _; rfl
  | cons x rest ih =>
    intro acc hsub
    rw [List.foldl_cons, if_pos (hsub x (by simp))]
    exact ih acc (fun a ha => hsub a (by simp [ha]))

theorem collectDistinct_foldl_fresh {κ : Type} [DecidableEq κ] :
    ∀ (l : List κ) (acc : List κ), l.Nodup → (∀ a ∈ l, a ∉ acc) →
      l.foldl (fun acc a => if a ∈ acc then acc else acc ++ [a]) acc
        = acc ++ l := by
  intro l
  induction l with
  | nil => intro acc _ _; simp
  | cons x rest ih =>
    intro acc hnodup hfresh
    rw [List.foldl_cons, if_neg (hfresh x (by simp))]
    rw [ih (acc ++ [x]) (List.nodup_cons.mp hnodup).2]
    · simp
    · intro a ha hmem
      rcases List.mem_append.mp hmem with h1 | h1
      · exact hfresh a (by simp [ha]) h1
      · rw [List.mem_singleton] at h1
        subst h1
        exact (List.nodup_cons.mp hnodup).1 ha

theorem collectDistinct_self_append {κ : Type} [DecidableEq κ] (l : List κ)
    (hnodup : l.Nodup) : collectDistinct (l ++ l) = l := by
  unfold collectDistinct
  rw [List.foldl_append]
  rw [collectDistinct_foldl_fresh l [] hnodup (by simp)]
  rw [List.nil_append]
  exact collectDistinct_foldl_subset l l (fun a ha => ha)

theorem posMapOf_lookup_fresh {α : Type} :
    ∀ (nodes : List (FrameNodeRec α)) (acc : List (String × (α × α × α)))
      (x : String), x ∉ nodes.map (·.id) →
      lookupAL x (nodes.foldl (fun acc n => setAL n.id (n.x, n.y, n.z) acc) acc)
        = lookupAL x acc := by
  intro nodes
  induction nodes with
  | nil => intro acc x _; rfl
  | cons m rest ih =>
    intro acc x hx
    rw [List.foldl_cons]
    rw [ih _ x (fun hc => hx (by simp [hc]))]
    exact lookupAL_setAL_ne (fun hc => hx (by simp [hc])) _ _

theorem posMapOf_lookup {α : Type} :
    ∀ (nodes : List (FrameNodeRec α)) (acc : List (String × (α × α × α)))
      (n : FrameNodeRec α), (nodes.map (·.id)).Nodup → n ∈ nodes →
      lookupAL n.id (nodes.foldl (fun acc n => setAL n.id (n.x, n.y, n.z) acc) acc)
        = some (n.x, n.y, n.z) := by
  intro nodes
  induction nodes with
  | nil => intro acc n _ hmem; simp at hmem
  | cons m rest ih =>
    intro acc n hnodup hmem
    rw [List.map_cons, List.nodup_cons] at hnodup
    rw [List.foldl_cons]
    rcases List.mem_cons.mp hmem with h1 | h1
    · subst h1
      rw [posMapOf_lookup_fresh rest _ n.id hnodup.1]
      exact lookupAL_setAL_self _ _ _
    · exact ih _ n hnodup.2 h1

theorem find_id_of_nodup {α : Type} :
    ∀ (nodes : List (FrameNodeRec α)) (n : FrameNodeRec α),
      (nodes.map (·.id)).Nodup → n ∈ nodes →
      nodes.find? (fun m => m.id = n.id) = some n := by
  intro nodes
  induction nodes with
  | nil => intro n _ hmem; simp at hmem
  | cons m rest ih =>
    intro n hnodup hmem
    rw [List.map_cons, List.nodup_cons] at hnodup
    rcases List.mem_cons.mp hmem with h1 | h1
    · subst h1
      simp [List.find?]
    · have hne : ¬ (m.id = n.id) := by
        intro hc
        exact hnodup.1 (hc ▸ List.mem_map_of_mem (·.id) h1)
      rw [List.find?]
      simp only [hne, decide_False]
      exact ih n hnodup.2 h1

theorem foldl_step_append {σ β : Type} (step : List β → σ → List β) (g : σ → β) :
    ∀ (l : List σ) (acc : List β),
      (∀ acc2 x, x ∈ l → step acc2 x = acc2 ++ [g x]) →
      l.foldl step acc = acc ++ l.map g := by
  intro l
  induction l with
  | nil => intro acc _; simp
  | cons x rest ih =>
    intro acc hstep
    rw [List.foldl_cons, hstep acc x (by simp),
      ih _ (fun acc2 y hy => hstep acc2 y (by simp [hy]))]
    simp

/-! ## C8 : self-interpolation -/

unseal Rat.add Rat.sub Rat.mul Rat.inv in
/-- **C8 (counterexample).**  Interpolating a frame with itself is *not* the
identity: `interpolate_frame` rebuilds `isNew` as "absent from the from-frame",
which is always false here, and recomputes `newFollowers` from it.  On a frame
whose single node has `isNew = true`, the interpolated nodes and stats differ
from the frame's. -/
theorem interpolateFrame_self_not_identity :
    let F : FrameData ℚ :=
      { interval_id := 1, timeframe_days := 30, timestamp := 100,
        ego_id := none,
        nodes := [{ id := "a", handle := none, name := none, avatar := none,
                    followers := 1000, importance := 1, community := 0,
                    x := 0, y := 0, z := 0, isNew := true, isEgo := false }],
        edges := [], communities := [0],
        stats := { nodeCount := 1, edgeCount := 0, communityCount := 1,
                   newFollowers := 1 } }
    (interpolateFrame 1 1 30 F F (1 / 2 : ℚ)).nodes ≠ F.nodes
      ∧ (interpolateFrame 1 1 30 F F (1 / 2 : ℚ)).stats ≠ F.stats := by
  intro F
  constructor <;> decide

/-- **C8 (amended).**  For a frame `F` with duplicate-free node ids,
`interpolate(F, F, p)` preserves the interval id, edge list, node count and
edge count, returns each node with its (2-decimal re-rounded) position and all
other fields intact *except* `isNew`, which is forced to `false`, and
recomputes the community list and stats from those nodes — so
`newFollowers = 0` regardless of `F`. -/
theorem interpolateFrame_self (F : FrameData ℚ) (p : ℚ)
    (hnodup : (F.nodes.map (·.id)).Nodup) :
    (interpolateFrame F.interval_id F.interval_id F.timeframe_days F F p).interval_id
        = F.interval_id
    ∧ (interpolateFrame F.interval_id F.interval_id F.timeframe_days F F p).edges
        = F.edges
    ∧ (interpolateFrame F.interval_id F.interval_id F.timeframe_days F F p).nodes
        = F.nodes.map (fun n =>
            { n with x := round2 n.x, y := round2 n.y, z := round2 n.z,
                     isNew := false })
    ∧ (interpolateFrame F.interval_id F.interval_id F.timeframe_days F F p).communities
        = collectDistinct (F.nodes.map (·.community))
    ∧ (interpolateFrame F.interval_id F.interval_id F.timeframe_days F F p).stats.nodeCount
        = F.nodes.length
    ∧ (interpolateFrame F.interval_id F.interval_id F.timeframe_days F F p).stats.edgeCount
        = F.edges.length
    ∧ (interpolateFrame F.interval_id F.interval_id F.timeframe_days F F p).stats.communityCount
        = (collectDistinct (F.nodes.map (·.community))).length
    ∧ (interpolateFrame F.interval_id F.interval_id F.timeframe_days F F p).stats.newFollowers
        = 0 := by
  have hids : collectDistinct (F.nodes.map (·.id) ++ F.nodes.map (·.id))
      = F.nodes.map (·.id) := collectDistinct_self_append _ hnodup
  set g : String → FrameNodeRec ℚ := fun node_id =>
    (fun n : FrameNodeRec ℚ =>
      { n with x := round2 n.x, y := round2 n.y, z := round2 n.z,
               isNew := false })
      ((F.nodes.find? (fun m => m.id = node_id)).getD
        { id := node_id, handle := none, name := none, avatar := none,
          followers := 0, importance := 0, community := 0,
          x := 0, y := 0, z := 0, isNew := false, isEgo := false }) with hg
  have hstep : ∀ (acc : List (FrameNodeRec ℚ)) (x : String),
      x ∈ F.nodes.map (·.id) →
      interpNodeStep F F (max 0 (min 1 p)) acc x = acc ++ [g x] := by
    intro acc x hx
    rcases List.mem_map.mp hx with ⟨n, hn, hid⟩
    subst hid
    have hpos : lookupAL n.id (posMapOf F.nodes) = some (n.x, n.y, n.z) :=
      posMapOf_lookup F.nodes [] n hnodup hn
    have hfind : F.nodes.find? (fun m => m.id = n.id) = some n :=
      find_id_of_nodup F.nodes n hnodup hn
    have harith : ∀ a : ℚ, a + (a - a) * max 0 (min 1 p) = a := by
      intro a
      ring
    simp [interpNodeStep, hpos, hfind, hg, harith]
  have hnodes :
      (interpolateFrame F.interval_id F.interval_id F.timeframe_days F F p).nodes
        = F.nodes.map (fun n =>
            { n with x := round2 n.x, y := round2 n.y, z := round2 n.z,
                     isNew := false }) := by
    show (collectDistinct (F.nodes.map (·.id) ++ F.nodes.map (·.id))).foldl
        (interpNodeStep F F (max 0 (min 1 p))) []
      = F.nodes.map (fun n =>
          { n with x := round2 n.x, y := round2 n.y, z := round2 n.z,
                   isNew := false })
    rw [hids, foldl_step_append (interpNodeStep F F (max 0 (min 1 p))) g
      (F.nodes.map (·.id)) [] hstep, List.nil_append, List.map_map]
    refine List.map_congr_left ?_
    intro n hn
    have hfind : F.nodes.find? (fun m => m.id = n.id) = some n :=
      find_id_of_nodup F.nodes n hnodup hn
    simp [hg, hfind]
  have hedges :
      (if (1 : ℚ) / 2 < max 0 (min 1 p) then F.edges else F.edges) = F.edges := by
    split <;> rfl
  have hcomm :
      collectDistinct
        ((interpolateFrame F.interval_id F.interval_id F.timeframe_days F F p).nodes.map
          (·.community))
        = collectDistinct (F.nodes.map (·.community)) := by
    rw [hnodes, List.map_map]
    rfl
  refine ⟨?_, ?_, hnodes, ?_, ?_, ?_, ?_, ?_⟩
  · show (if (1 : ℚ) / 2 < max 0 (min 1 p) then F.interval_id else F.interval_id)
      = F.interval_id
    split <;> rfl
  · show (if (1 : ℚ) / 2 < max 0 (min 1 p) then F.edges else F.edges) = F.edges
    exact hedges
  · exact hcomm
  · show (interpolateFrame F.interval_id F.interval_id F.timeframe_days F F p).nodes.length
      = F.nodes.length
    rw [hnodes, List.length_map]
  · show (if (1 : ℚ) / 2 < max 0 (min 1 p) then F.edges else F.edges).length
      = F.edges.length
    rw [hedges]
  · exact congrArg List.length hcomm
  · show ((interpolateFrame F.interval_id F.interval_id F.timeframe_days F F
        p).nodes.filter (·.isNew)).length = 0
    rw [hnodes]
    rw [List.length_eq_zero]
    refine List.filter_eq_nil_iff.mpr ?_
    intro a ha
    rcases List.mem_map.mp ha with ⟨n, _, hn⟩
    subst hn
    simp

unseal Rat.add Rat.sub Rat.mul Rat.inv in
/-- Witness for C8 (amended) on a concrete two-node frame. -/
theorem interpolateFrame_self_witness :
    let F : FrameData ℚ :=
      { interval_id := 5, timeframe_days := 30, timestamp := 100,
        ego_id := none,
        nodes := [{ id := "a", handle := none, name := none, avatar := none,
                    followers := 600, importance := 1, community := 0,
                    x := 1, y := 2, z := 3, isNew := true, isEgo := false },
                  { id := "b", handle := none, name := none, avatar := none,
                    followers := 700, importance := 1, community := 1,
                    x := 4, y := 5, z := 6, isNew := false, isEgo := false }],
        edges := [{ source := "a", target := "b", etype := "mutual", weight := 1 }],
        communities := [0, 1],
        stats := { nodeCount := 2, edgeCount := 1, communityCount := 2,
                   newFollowers := 1 } }
    (F.nodes.map (·.id)).Nodup
      ∧ (interpolateFrame F.interval_id F.interval_id F.timeframe_days F F
          (1 / 4 : ℚ)).edges = F.edges := by
  intro F
  exact ⟨by decide, (interpolateFrame_self F (1 / 4) (by decide)).2.1⟩

/-! ## C6 : community detection renumbering -/

theorem indexOf_lt_indexOf_of_sorted :
    ∀ (l : List ℕ), l.Sorted (· ≤ ·) → l.Nodup →
      ∀ a b, a ∈ l → b ∈ l → a < b → l.indexOf a < l.indexOf b := by
  intro l
  induction l with
  | nil => intro _ _ a b ha _ _; simp at ha
  | cons h t ih =>
    intro hsort hnodup a b ha hb hab
    rw [List.sorted_cons] at hsort
    rw [List.nodup_cons] at hnodup
    by_cases hah : a = h
    · subst hah
      have hbt : b ∈ t := by
        rcases List.mem_cons.mp hb with h1 | h1
        · omega
        · exact h1
      rw [List.indexOf_cons_self]
      rw [List.indexOf_cons_ne _ (by omega : a ≠ b)]
      omega
    · have hat : a ∈ t := by
        rcases List.mem_cons.mp ha with h1 | h1
        · exact absurd h1 hah
        · exact h1
      have hbh : b ≠ h := by
        intro hc
        subst hc
        have := hsort.1 a hat
        omega
      have hbt : b ∈ t := by
        rcases List.mem_cons.mp hb with h1 | h1
        · exact absurd h1 hbh
        · exact h1
      rw [List.indexOf_cons_ne _ (show h ≠ a from fun hc => hah hc.symm),
        List.indexOf_cons_ne _ (show h ≠ b from fun hc => hbh hc.symm)]
      have := ih hsort.2 hnodup.2 a b hat hbt hab
      omega

theorem indexOf_get_of_nodup :
    ∀ (l : List ℕ), l.Nodup → ∀ (i : Fin l.length), l.indexOf (l.get i) = i := by
  intro l
  induction l with
  | nil => intro _ i; exact absurd i.2 (by simp)
  | cons h t ih =>
    intro hnodup i
    rw [List.nodup_cons] at hnodup
    rcases i with ⟨iv, hi⟩
    cases iv with
    | zero => simp
    | succ j =>
        have hj : j < t.length := by simpa using hi
        have hgt : (h :: t).get ⟨j + 1, hi⟩ = t.get ⟨j, hj⟩ := rfl
        rw [hgt]
        have hne : h ≠ t.get ⟨j, hj⟩ := by
          intro hc
          exact hnodup.1 (hc ▸ List.get_mem t j hj)
        rw [List.indexOf_cons_ne _ hne]
        have hih := ih hnodup.2 ⟨j, hj⟩
        simp only [hih]

/-- The sorted distinct label list used by `renumberSorted`. -/
theorem sortedLabels_facts (labels : List ℕ) :
    (List.insertionSort (· ≤ ·) labels.dedup).Sorted (· ≤ ·)
    ∧ (List.insertionSort (· ≤ ·) labels.dedup).Nodup
    ∧ (∀ c, c ∈ List.insertionSort (· ≤ ·) labels.dedup ↔ c ∈ labels) := by
  refine ⟨List.sorted_insertionSort _ _, ?_, ?_⟩
  · exact (List.perm_insertionSort _ _).nodup_iff.mpr (List.nodup_dedup _)
  · intro c
    rw [(List.perm_insertionSort _ _).mem_iff, List.mem_dedup]

theorem scdVisit_cases {α : Type} [LinearOrderedField α]
    (adj : List (String × List (String × α))) (st : List (String × ℕ) × Bool)
    (nid : String) :
    scdVisit adj st nid = st ∨ (scdVisit adj st nid).2 = true := by
  unfold scdVisit
  repeat' split
  all_goals first
  | exact Or.inl rfl
  | exact Or.inr rfl

theorem scdVisit_of_not_changed {α : Type} [LinearOrderedField α]
    (adj : List (String × List (String × α))) (st : List (String × ℕ) × Bool)
    (nid : String) (h : (scdVisit adj st nid).2 = false) :
    scdVisit adj st nid = st := by
  rcases scdVisit_cases adj st nid with h1 | h1
  · exact h1
  · rw [h1] at h
    cases h

theorem scdPass_of_not_changed {α : Type} [LinearOrderedField α]
    (adj : List (String × List (String × α))) (node_ids : List String) :
    ∀ (st : List (String × ℕ) × Bool),
      (node_ids.foldl (scdVisit adj) st).2 = false →
      node_ids.foldl (scdVisit adj) st = st := by
  induction node_ids with
  | nil => intro st _; rfl
  | cons x rest ih =>
    intro st h
    rw [List.foldl_cons] at h ⊢
    have h2 := ih (scdVisit adj st x) h
    rw [h2] at h ⊢
    rw [scdVisit_of_not_changed adj st x h]

/-- A (`String × ℕ`)-keyed `setAL` on an existing key keeps the key list. -/
theorem setAL_keys_of_mem {κ α : Type} [DecidableEq κ] (k : κ) (v : α) :
    ∀ (l : List (κ × α)), k ∈ l.map Prod.fst →
      (setAL k v l).map Prod.fst = l.map Prod.fst := by
  intro l
  induction l with
  | nil => intro h; simp at h
  | cons p rest ih =>
    intro h
    rcases p with ⟨k2, v2⟩
    by_cases h2 : k2 = k
    · subst h2
      simp [setAL, updAL]
    · have hk : k ∈ rest.map Prod.fst := by
        rcases List.mem_map.mp h with ⟨q, hq, hqk⟩
        rcases List.mem_cons.mp hq with h3 | h3
        · exact absurd (by rw [h3] at hqk; exact hqk) h2
        · exact hqk ▸ List.mem_map_of_mem Prod.fst h3
      simp only [setAL, updAL, h2, if_false, List.map_cons]
      rw [show updAL k v (fun _ => v) rest = setAL k v rest from rfl, ih hk]

unseal Rat.add Rat.sub Rat.mul Rat.inv in
/-- **C6 (counterexample).**  With nodes `[a, b, c, d]` and the single edge
`b – d`, label propagation ends with provisional labels
`a ↦ 0, b ↦ 3, c ↦ 2, d ↦ 3`; the code renumbers them in ascending label
order, giving `a ↦ 0, b ↦ 2, c ↦ 1, d ↦ 2`, whereas renumbering in order of
first appearance (the claim) would give `a ↦ 0, b ↦ 1, c ↦ 2, d ↦ 1`. -/
theorem simpleCommunityDetection_not_first_appearance :
    simpleCommunityDetection
        [mkNode "a", mkNode "b", mkNode "c", mkNode "d"]
        [{ src_id := "b", dst_id := "d", edge_type := "direct", weight := 1 }]
      = [("a", 0), ("b", 2), ("c", 1), ("d", 2)]
    ∧ renumberFirstAppearance (labelPropagation
        [mkNode "a", mkNode "b", mkNode "c", mkNode "d"]
        [{ src_id := "b", dst_id := "d", edge_type := "direct", weight := 1 }])
      = [("a", 0), ("b", 1), ("c", 2), ("d", 1)]
    ∧ simpleCommunityDetection
        [mkNode "a", mkNode "b", mkNode "c", mkNode "d"]
        [{ src_id := "b", dst_id := "d", edge_type := "direct", weight := 1 }]
      ≠ renumberFirstAppearance (labelPropagation
        [mkNode "a", mkNode "b", mkNode "c", mkNode "d"]
        [{ src_id := "b", dst_id := "d", edge_type := "direct", weight := 1 }]) := by
  refine ⟨by decide, by decide, by decide⟩

/-- **C6 (amended).**  `simple_community_detection` starts each node in its
own community, runs at most 10 sequential label-propagation passes (the
`scdLoop` fuel), and a pass with no reassignment both terminates the loop and
leaves the labels unchanged (conjunct 1).  The final labels are renumbered to
`{0, …, K-1}` — conjunct 3 — but in *ascending order of the provisional
label* (conjunct 4: the renumbering is strictly monotone in the label, hence
also injective), not in order of first appearance; conjunct 2 says the
node-key column is unchanged by renumbering. -/
theorem simpleCommunityDetection_renumber {α : Type} [LinearOrderedField α]
    (nodes : List (GraphNode α)) (edges : List (GraphEdge α)) :
    (∀ comms : List (String × ℕ),
      (scdPass (scdAdjacency edges) (nodes.map (·.account_id)) comms).2 = false →
      (scdPass (scdAdjacency edges) (nodes.map (·.account_id)) comms).1 = comms)
    ∧ (simpleCommunityDetection nodes edges).map Prod.fst
        = (labelPropagation nodes edges).map Prod.fst
    ∧ (∀ n c, (n, c) ∈ labelPropagation nodes edges →
        (n, (List.insertionSort (· ≤ ·)
          ((labelPropagation nodes edges).map Prod.snd).dedup).indexOf c)
          ∈ simpleCommunityDetection nodes edges)
    ∧ ((simpleCommunityDetection nodes edges).map Prod.snd).toFinset
        = Finset.range (((labelPropagation nodes edges).map Prod.snd).dedup.length)
    ∧ (∀ c1 c2, c1 ∈ (labelPropagation nodes edges).map Prod.snd →
        c2 ∈ (labelPropagation nodes edges).map Prod.snd → c1 < c2 →
        (List.insertionSort (· ≤ ·)
            ((labelPropagation nodes edges).map Prod.snd).dedup).indexOf c1
          < (List.insertionSort (· ≤ ·)
            ((labelPropagation nodes edges).map Prod.snd).dedup).indexOf c2) := by
  set lab := labelPropagation nodes edges with hlab
  set sorted := List.insertionSort (· ≤ ·) (lab.map Prod.snd).dedup with hsorted
  obtain ⟨hsort, hnodup, hmem⟩ := sortedLabels_facts (lab.map Prod.snd)
  have hout : simpleCommunityDetection nodes edges
      = lab.map (fun p => (p.1, sorted.indexOf p.2)) := rfl
  have hlen : sorted.length = (lab.map Prod.snd).dedup.length :=
    (List.perm_insertionSort _ _).length_eq
  refine ⟨?_, ?_, ?_, ?_, ?_⟩
  · intro comms h
    have h2 : ((nodes.map (·.account_id)).foldl (scdVisit (scdAdjacency edges))
        (comms, false)).2 = false := h
    have h3 := scdPass_of_not_changed (scdAdjacency edges)
      (nodes.map (·.account_id)) (comms, false) h2
    show ((nodes.map (·.account_id)).foldl (scdVisit (scdAdjacency edges))
        (comms, false)).1 = comms
    rw [h3]
  · rw [hout, List.map_map]
    rfl
  · intro n c hmem2
    rw [hout]
    exact List.mem_map.mpr ⟨(n, c), hmem2, rfl⟩
  · ext i
    have houtsnd : (simpleCommunityDetection nodes edges).map Prod.snd
        = (lab.map Prod.snd).map (fun c => sorted.indexOf c) := by
      rw [hout, List.map_map, List.map_map]
      rfl
    rw [houtsnd]
    rw [List.mem_toFinset, Finset.mem_range]
    constructor
    · intro hi
      rcases List.mem_map.mp hi with ⟨c, hc, hic⟩
      subst hic
      have hcs : c ∈ sorted := (hmem c).mpr hc
      calc sorted.indexOf c < sorted.length := List.indexOf_lt_length.mpr hcs
        _ = _ := hlen
    · intro hi
      have hi2 : i < sorted.length := by omega
      refine List.mem_map.mpr ⟨sorted.get ⟨i, hi2⟩, ?_, ?_⟩
      · exact (hmem _).mp (List.get_mem sorted i hi2)
      · exact indexOf_get_of_nodup sorted hnodup ⟨i, hi2⟩
  · intro c1 c2 h1 h2 hlt
    exact indexOf_lt_indexOf_of_sorted sorted hsort hnodup c1 c2
      ((hmem c1).mpr h1) ((hmem c2).mpr h2) hlt

unseal Rat.add Rat.sub Rat.mul Rat.inv in
/-- Witness for C6 (amended): pass stability and monotone renumbering at the
concrete four-node input. -/
theorem simpleCommunityDetection_renumber_witness :
    ((scdPass (scdAdjacency
          [({ src_id := "b", dst_id := "d", edge_type := "direct", weight := 1 }
            : GraphEdge ℚ)])
        (([mkNode "a", mkNode "b", mkNode "c", mkNode "d"]).map (·.account_id))
        [("a", 0), ("b", 3), ("c", 2), ("d", 3)]).2 = false
      ∧ (scdPass (scdAdjacency
          [({ src_id := "b", dst_id := "d", edge_type := "direct", weight := 1 }
            : GraphEdge ℚ)])
        (([mkNode "a", mkNode "b", mkNode "c", mkNode "d"]).map (·.account_id))
        [("a", 0), ("b", 3), ("c", 2), ("d", 3)]).1
          = [("a", 0), ("b", 3), ("c", 2), ("d", 3)])
    ∧ ((2 : ℕ) ∈ (labelPropagation
          [mkNode "a", mkNode "b", mkNode "c", mkNode "d"]
          [{ src_id := "b", dst_id := "d", edge_type := "direct", weight := 1 }]).map
            Prod.snd
      ∧ (List.insertionSort (· ≤ ·) ((labelPropagation
            [mkNode "a", mkNode "b", mkNode "c", mkNode "d"]
            [{ src_id := "b", dst_id := "d", edge_type := "direct", weight := 1 }]).map
              Prod.snd).dedup).indexOf 2
          < (List.insertionSort (· ≤ ·) ((labelPropagation
            [mkNode "a", mkNode "b", mkNode "c", mkNode "d"]
            [{ src_id := "b", dst_id := "d", edge_type := "direct", weight := 1 }]).map
              Prod.snd).dedup).indexOf 3) := by
  refine ⟨⟨by decide, (simpleCommunityDetection_renumber
      [mkNode "a", mkNode "b", mkNode "c", mkNode "d"]
      [{ src_id := "b", dst_id := "d", edge_type := "direct", weight := 1 }]).1
      _ (by decide)⟩,
    by decide,
    (simpleCommunityDetection_renumber
      [mkNode "a", mkNode "b", mkNode "c", mkNode "d"]
      [{ src_id := "b", dst_id := "d", edge_type := "direct", weight := 1 }]).2.2.2.2
      2 3 (by decide) (by decide) (by decide)⟩

/-- Witness for C5 at `Δ = 0`, `Δ < 0` and `Δ = 14` days. -/
theorem computeRecencyDecay_spec_witness :
    computeRecencyDecay (some 5) (some 5) = 1
    ∧ ((3 : ℤ) < 5 ∧ computeRecencyDecay (some 5) (some 3) = 1)
    ∧ ((1209600 : ℤ) - 0 = 14 * 86400
        ∧ |computeRecencyDecay (some 0) (some 1209600) - 1 / 2| ≤ 1 / 200) :=
  ⟨computeRecencyDecay_spec.2.2.2.1 5,
   ⟨by norm_num, computeRecencyDecay_spec.2.2.2.2.1 5 3 (by norm_num)⟩,
   ⟨by norm_num, computeRecencyDecay_spec.2.2.2.2.2 0 1209600 (by norm_num)⟩⟩

/-! ## C3: `prune_graph` bounds -/

theorem mem_foldl_append {σ γ : Type} (f : σ → List γ) :
    ∀ (l : List σ) (init : List γ) (x : γ),
      (x ∈ l.foldl (fun acc p => acc ++ f p) init ↔ x ∈ init ∨ ∃ p ∈ l, x ∈ f p) := by
  intro l
  induction l with
  | nil => intro init x; simp
  | cons y rest ih =>
    intro init x
    rw [List.foldl_cons, ih]
    simp [List.mem_append, or_assoc]

theorem pushAL_pres {κ β : Type} [DecidableEq κ] (Q : κ → β → Prop) (k : κ) (v : β)
    (hv : Q k v) :
    ∀ (l : List (κ × List β)), (∀ p ∈ l, ∀ x ∈ p.2, Q p.1 x) →
      ∀ p ∈ pushAL k v l, ∀ x ∈ p.2, Q p.1 x := by
  intro l
  induction l with
  | nil =>
    intro _ p hp x hx
    simp only [pushAL, updAL, List.mem_singleton] at hp
    subst hp
    simp only [List.nil_append, List.mem_singleton] at hx
    subst hx
    exact hv
  | cons q rest ih =>
    obtain ⟨k2, vs⟩ := q
    intro hall p hp x hx
    simp only [pushAL, updAL] at hp
    by_cases h : k2 = k
    · rw [if_pos h] at hp
      rcases List.mem_cons.mp hp with h1 | h1
      · subst h1
        rcases List.mem_append.mp hx with h2 | h2
        · exact hall (k2, vs) (by simp) x h2
        · rw [List.mem_singleton] at h2
          subst h2
          exact h ▸ hv
      · exact hall p (List.mem_cons_of_mem _ h1) x hx
    · rw [if_neg h] at hp
      rcases List.mem_cons.mp hp with h1 | h1
      · subst h1
        exact hall (k2, vs) (by simp) x hx
      · exact ih (fun p2 hp2 => hall p2 (List.mem_cons_of_mem _ hp2)) p h1 x hx

theorem edgeByNode_owner {α : Type} (edges : List (GraphEdge α)) :
    ∀ p ∈ edgeByNode edges, ∀ e ∈ p.2, p.1 = e.src_id ∨ p.1 = e.dst_id := by
  have H := foldl_mem_invariant
    (fun p : String × List (GraphEdge α) =>
      ∀ x ∈ p.2, p.1 = x.src_id ∨ p.1 = x.dst_id)
    (fun acc e => pushAL e.dst_id e (pushAL e.src_id e acc))
    (fun acc e hacc =>
      pushAL_pres (fun nid x => nid = x.src_id ∨ nid = x.dst_id) e.dst_id e
        (Or.inr rfl) _
        (pushAL_pres (fun nid x => nid = x.src_id ∨ nid = x.dst_id) e.src_id e
          (Or.inl rfl) acc hacc))
    edges [] (by simp)
  intro p hp
  exact H p hp

theorem min_max_pair_eq (a b c d : String)
    (hmin : strMin a b = strMin c d) (hmax : strMax a b = strMax c d) :
    (a = c ∧ b = d) ∨ (a = d ∧ b = c) := by
  simp only [strMin, strMax] at hmin hmax
  cases hba : strLtB b a <;> cases hdc : strLtB d c <;>
    rw [hba, hdc] at hmin hmax <;> simp at hmin hmax
  · exact Or.inl ⟨hmin, hmax⟩
  · exact Or.inr ⟨hmin, hmax⟩
  · exact Or.inr ⟨hmax, hmin⟩
  · exact Or.inl ⟨hmax, hmin⟩

theorem pruneGraph_nodes_sub {α : Type} [LinearOrderedField α] (log1p : α → α)
    (nodes : List (String × GraphNode α)) (edges : List (GraphEdge α))
    (mn me mepn : ℕ) (mf : ℤ) :
    ∀ p ∈ (pruneGraph log1p nodes edges mn me mepn mf).1,
      p ∈ assignImportance log1p (filterMinFollowers mf nodes) edges := by
  intro p hp
  simp only [pruneGraph] at hp
  unfold topNodes at hp
  split at hp
  · exact (List.perm_insertionSort _ _).mem_iff.mp (List.take_subset _ _ hp)
  · exact hp

theorem assignImportance_followers {α : Type} [LinearOrderedField α] (log1p : α → α)
    (nodes1 : List (String × GraphNode α)) (edges : List (GraphEdge α)) :
    ∀ p ∈ assignImportance log1p nodes1 edges,
      ∃ q ∈ nodes1, p.2.followers_count = q.2.followers_count := by
  intro p hp
  simp only [assignImportance, List.mem_map] at hp
  obtain ⟨q, hq, rfl⟩ := hp
  exact ⟨q, hq, rfl⟩

theorem filterMinFollowers_ge {α : Type} (mf : ℤ)
    (nodes : List (String × GraphNode α)) (hmf : 0 < mf) :
    ∀ p ∈ filterMinFollowers mf nodes, mf ≤ p.2.followers_count := by
  intro p hp
  rw [filterMinFollowers, if_pos hmf] at hp
  exact of_decide_eq_true (List.mem_filter.mp hp).2

theorem topNodes_length {α : Type} [LinearOrderedField α] (mn : ℕ)
    (l : List (String × GraphNode α)) : (topNodes mn l).length ≤ mn := by
  unfold topNodes
  split
  · rw [List.length_take]
    exact min_le_left _ _
  · next h => exact Nat.le_of_not_lt h

theorem pruneGraph_edges_sub {α : Type} [LinearOrderedField α] (log1p : α → α)
    (nodes : List (String × GraphNode α)) (edges : List (GraphEdge α))
    (mn me mepn : ℕ) (mf : ℤ) :
    ∀ e ∈ (pruneGraph log1p nodes edges mn me mepn mf).2,
      e ∈ edges.filter (fun e2 =>
          e2.src_id ∈ (pruneGraph log1p nodes edges mn me mepn mf).1.map Prod.fst
          && e2.dst_id ∈ (pruneGraph log1p nodes edges mn me mepn mf).1.map Prod.fst)
      ∧ edgeKey e ∈ keptKeys mepn (edgeByNode (edges.filter (fun e2 =>
          e2.src_id ∈ (pruneGraph log1p nodes edges mn me mepn mf).1.map Prod.fst
          && e2.dst_id ∈ (pruneGraph log1p nodes edges mn me mepn mf).1.map Prod.fst))) := by
  intro e he
  simp only [pruneGraph] at he ⊢
  have he3 : e ∈ List.filter
      (fun e => decide (edgeKey e ∈ keptKeys mepn (edgeByNode (List.filter
        (fun e => e.src_id ∈ (topNodes mn (assignImportance log1p
            (filterMinFollowers mf nodes) edges)).map Prod.fst
          && e.dst_id ∈ (topNodes mn (assignImportance log1p
            (filterMinFollowers mf nodes) edges)).map Prod.fst) edges))))
      (List.filter (fun e => e.src_id ∈ (topNodes mn (assignImportance log1p
            (filterMinFollowers mf nodes) edges)).map Prod.fst
          && e.dst_id ∈ (topNodes mn (assignImportance log1p
            (filterMinFollowers mf nodes) edges)).map Prod.fst) edges) := by
    split at he
    · exact (List.perm_insertionSort _ _).mem_iff.mp (List.take_subset _ _ he)
    · exact he
  have h4 := List.mem_filter.mp he3
  refine ⟨h4.1, of_decide_eq_true h4.2⟩

set_option maxRecDepth 10000 in
unseal Rat.add Rat.sub Rat.mul Rat.inv in
/-- **C3** counterexample: with the claimed parameters
(`max_nodes = 2000`, `max_edges = 12000`, `max_edges_per_node = 50`,
`min_followers = 500`), a star with hub `h` and 51 unit-weight leaf edges,
every node passing the min-followers filter, yields a pruned graph in which
`h` has 51 incident retained edges — more than `max_edges_per_node = 50`.
`kept_edges` is the union over endpoints of per-endpoint top-50 keys, and
each leaf's own bucket rescues the edge that the hub's top-50 dropped. -/
theorem pruneGraph_exceeds_per_node_cap :
    ((pruneGraph (fun x : ℚ => x) c3Nodes c3Edges 2000 12000 50 500).2.countP
      (fun e => e.src_id == "h" || e.dst_id == "h")) = 51
    ∧ 50 < 51
    ∧ ∀ p ∈ c3Nodes, (500 : ℤ) ≤ p.2.followers_count := by
  refine ⟨by decide, by decide, by decide⟩

/-- **C3** (amended): `prune_graph` keeps only nodes passing the min-followers
filter, keeps at most `max_nodes` nodes and at most `max_edges` edges, keeps
only edges with both endpoints among the retained nodes, keeps an edge only if
its undirected key is among the top-`max_edges_per_node`-by-weight incident
edges of at least one of its endpoints, and when the node budget forces a cut
every retained node's importance is at least every dropped node's importance.
The spec's per-node cap on *incident retained edges* does not hold, because
the kept-key set is a union over both endpoints (see the counterexample). -/
theorem pruneGraph_bounds {α : Type} [LinearOrderedField α] (log1p : α → α)
    (nodes : List (String × GraphNode α)) (edges : List (GraphEdge α))
    (mn me mepn : ℕ) (mf : ℤ)
    (res : List (String × GraphNode α) × List (GraphEdge α))
    (hres : res = pruneGraph log1p nodes edges mn me mepn mf) :
    (∀ p ∈ res.1, 0 < mf → mf ≤ p.2.followers_count)
    ∧ res.1.length ≤ mn
    ∧ res.2.length ≤ me
    ∧ (∀ e ∈ res.2, e.src_id ∈ res.1.map Prod.fst ∧ e.dst_id ∈ res.1.map Prod.fst)
    ∧ (∀ e ∈ res.2, ∃ pr ∈ edgeByNode (edges.filter (fun e2 =>
          e2.src_id ∈ res.1.map Prod.fst && e2.dst_id ∈ res.1.map Prod.fst)),
        (pr.1 = e.src_id ∨ pr.1 = e.dst_id) ∧
        ∃ e3 ∈ (List.insertionSort
            (keyGE (fun x : GraphEdge α => x.weight)) pr.2).take mepn,
          edgeKey e3 = edgeKey e)
    ∧ (∀ p ∈ res.1, ∀ q ∈ assignImportance log1p (filterMinFollowers mf nodes) edges,
        q ∉ res.1 → q.2.importance ≤ p.2.importance) := by
  subst hres
  refine ⟨?_, ?_, ?_, ?_, ?_, ?_⟩
  · intro p hp hmf
    obtain ⟨q, hq, hfol⟩ := assignImportance_followers log1p _ edges p
      (pruneGraph_nodes_sub log1p nodes edges mn me mepn mf p hp)
    rw [hfol]
    exact filterMinFollowers_ge mf nodes hmf q hq
  · simp only [pruneGraph]
    exact topNodes_length mn _
  · simp only [pruneGraph]
    split
    · rw [List.length_take]
      exact min_le_left _ _
    · next h => exact Nat.le_of_not_lt h
  · intro e he
    have h4 := List.mem_filter.mp
      (pruneGraph_edges_sub log1p nodes edges mn me mepn mf e he).1
    have h5 := h4.2
    simp only [Bool.and_eq_true, decide_eq_true_eq] at h5
    exact h5
  · intro e he
    have hkey := (pruneGraph_edges_sub log1p nodes edges mn me mepn mf e he).2
    rw [keptKeys] at hkey
    have h5 := (mem_foldl_append
      (fun pr : String × List (GraphEdge α) =>
        ((List.insertionSort (keyGE (fun x : GraphEdge α => x.weight)) pr.2).take
          mepn).map edgeKey)
      (edgeByNode _) [] (edgeKey e)).mp hkey
    rcases h5 with h5 | ⟨pr, hpr, hmem⟩
    · simp at h5
    obtain ⟨e3, he3, heq⟩ := List.mem_map.mp hmem
    have howner := edgeByNode_owner _ pr hpr e3
      ((List.perm_insertionSort _ _).mem_iff.mp (List.take_subset _ _ he3))
    have heq2 := heq
    simp only [edgeKey, Prod.mk.injEq] at heq2
    have hpair := min_max_pair_eq e3.src_id e3.dst_id e.src_id e.dst_id
      heq2.1 heq2.2.1
    refine ⟨pr, hpr, ?_, e3, he3, heq⟩
    rcases howner with h | h <;> rcases hpair with ⟨h1, h2⟩ | ⟨h1, h2⟩
    · exact Or.inl (h.trans h1)
    · exact Or.inr (h.trans h1)
    · exact Or.inr (h.trans h2)
    · exact Or.inl (h.trans h2)
  · intro p hp q hq hnq
    simp only [pruneGraph] at hp hnq
    unfold topNodes at hp hnq
    split at hp
    · next h =>
      rw [if_pos h] at hnq
      have hsq : q ∈ List.insertionSort
          (keyGE (fun p : String × GraphNode α => p.2.importance))
          (assignImportance log1p (filterMinFollowers mf nodes) edges) :=
        (List.perm_insertionSort _ _).mem_iff.mpr hq
      have hsplit : q ∈ (List.insertionSort
          (keyGE (fun p : String × GraphNode α => p.2.importance))
          (assignImportance log1p (filterMinFollowers mf nodes) edges)).take mn
          ++ (List.insertionSort
          (keyGE (fun p : String × GraphNode α => p.2.importance))
          (assignImportance log1p (filterMinFollowers mf nodes) edges)).drop mn := by
        rw [List.take_append_drop]
        exact hsq
      rcases List.mem_append.mp hsplit with h1 | h2
      · exact absurd h1 hnq
      · have hrel : keyGE (fun p : String × GraphNode α => p.2.importance) p q :=
          List.Sorted.rel_of_mem_take_of_mem_drop
            (List.sorted_insertionSort _ _) hp h2
        exact hrel
    · next h =>
      rw [if_neg h] at hnq
      exact absurd hq hnq

set_option maxRecDepth 10000 in
unseal Rat.add Rat.sub Rat.mul Rat.inv in
/-- Witness for C3 (amended) at the star input: node and edge budgets hold and
the endpoints of a concrete retained edge are retained. -/
theorem pruneGraph_bounds_witness :
    (pruneGraph (fun x : ℚ => x) c3Nodes c3Edges 2000 12000 50 500).1.length ≤ 2000
    ∧ ("h" ∈ (pruneGraph (fun x : ℚ => x) c3Nodes c3Edges
          2000 12000 50 500).1.map Prod.fst
      ∧ "l0" ∈ (pruneGraph (fun x : ℚ => x) c3Nodes c3Edges
          2000 12000 50 500).1.map Prod.fst) := by
  refine ⟨(pruneGraph_bounds (fun x : ℚ => x) c3Nodes c3Edges
      2000 12000 50 500 _ rfl).2.1, ?_⟩
  exact (pruneGraph_bounds (fun x : ℚ => x) c3Nodes c3Edges
      2000 12000 50 500 _ rfl).2.2.2.1
    { src_id := "h", dst_id := "l0", edge_type := "direct_interaction", weight := 1 }
    (by decide)

/-! ## C9: `save_frame` crash behaviour -/

theorem sfNoCommit {α : Type} :
    ∀ (l : List (SaveOp α)) (st : Store α × Store α),
      (∀ op ∈ l, op ≠ SaveOp.commit) → (l.foldl applySaveOp st).1 = st.1 := by
  intro l
  induction l with
  | nil => intro st _; rfl
  | cons op rest ih =>
    intro st hnc
    rw [List.foldl_cons, ih _ (fun op2 h2 => hnc op2 (List.mem_cons_of_mem _ h2))]
    cases op
    case commit => exact absurd rfl (hnc _ (List.mem_cons_self _ _))
    all_goals rfl

theorem saveFrameOps_decomp {α : Type} (itv : IntervalRec) (fd : FrameData α)
    (tf : ℤ) :
    saveFrameOps itv fd tf
      = ((sfPre5 itv ++ sfEdgeOps itv fd) ++ sfNodeOps itv fd)
          ++ sfLast2 itv fd tf := rfl

theorem sfFoldEdges {α : Type} (iid : ℤ) :
    ∀ (l : List (FrameEdgeRec α)) (c t : Store α),
      (l.map (fun e => SaveOp.insEdge (sfEdgeRow iid e))).foldl applySaveOp (c, t)
      = (c, { t with edges := t.edges ++ l.map (sfEdgeRow iid) }) := by
  intro l
  induction l with
  | nil => intro c t; simp
  | cons e rest ih =>
    intro c t
    simp only [List.map_cons, List.foldl_cons, applySaveOp]
    rw [ih]
    simp [List.append_assoc]

theorem sfFoldNodes {α : Type} (iid : ℤ) :
    ∀ (l : List (FrameNodeRec α)) (c t : Store α),
      (l.flatMap (fun n =>
        [SaveOp.insCommunity (sfCommunityRow iid n),
         SaveOp.insPosition (sfPositionRow iid n),
         SaveOp.insPosHist (sfPosHistRow iid n)])).foldl applySaveOp (c, t)
      = (c, { t with
          communities := t.communities ++ l.map (sfCommunityRow iid),
          positions := t.positions ++ l.map (sfPositionRow iid),
          posHistory := t.posHistory ++ l.map (sfPosHistRow iid) }) := by
  intro l
  induction l with
  | nil => intro c t; simp
  | cons n rest ih =>
    intro c t
    simp only [List.flatMap_cons, List.foldl_append, List.foldl_cons,
      List.foldl_nil, applySaveOp]
    rw [ih]
    simp [List.append_assoc]

theorem filter_ne_then_eq {β : Type} (f : β → ℤ) (iid : ℤ) (l : List β) :
    (l.filter (fun r => f r ≠ iid)).filter (fun r => f r = iid) = [] := by
  rw [List.filter_filter]
  refine List.filter_eq_nil_iff.mpr ?_
  intro a _
  simp only [Bool.and_eq_true, decide_eq_true_eq, not_and]
  intro h1 h2
  exact h2 h1

theorem sfDerivedComp {β : Type} (f : β → ℤ) (iid : ℤ) (base rows : List β)
    (hrows : ∀ r ∈ rows, f r = iid) :
    ((base.filter (fun r => f r ≠ iid) ++ rows).filter (fun r => f r = iid))
      = rows := by
  rw [List.filter_append, filter_ne_then_eq f iid base,
    List.filter_eq_self.mpr (fun a ha => by simp [hrows a ha]), List.nil_append]

theorem derivedFor_sfDeleted {α : Type} (iid : ℤ) (s : Store α) :
    derivedFor iid (sfDeleted iid s) = ([], [], [], []) := by
  simp only [derivedFor, sfDeleted, Prod.mk.injEq]
  exact ⟨filter_ne_then_eq _ _ _, filter_ne_then_eq _ _ _,
    filter_ne_then_eq _ _ _, filter_ne_then_eq _ _ _⟩

theorem saveFrameCrash_before_commit {α : Type} (store0 : Store α)
    (itv : IntervalRec) (fd : FrameData α) (tf : ℤ) (k : ℕ) (hk : k ≤ 4) :
    saveFrameCrash store0 itv fd tf k = store0 := by
  have h4 : (saveFrameOps itv fd tf).take 4
      = ([SaveOp.delEdges itv.interval_id, SaveOp.delCommunities itv.interval_id,
          SaveOp.delPositions itv.interval_id, SaveOp.delFrames itv.interval_id]
        : List (SaveOp α)) := rfl
  have hnc : ∀ op ∈ (saveFrameOps itv fd tf).take k, op ≠ SaveOp.commit := by
    intro op hop
    have hkk : (saveFrameOps itv fd tf).take k
        = ((saveFrameOps itv fd tf).take 4).take k := by
      rw [List.take_take, min_eq_left hk]
    rw [hkk, h4] at hop
    have hop2 := List.take_subset _ _ hop
    simp only [List.mem_cons, List.not_mem_nil, or_false] at hop2
    rcases hop2 with rfl | rfl | rfl | rfl <;> simp
  unfold saveFrameCrash
  exact sfNoCommit _ _ hnc

theorem saveFrameCrash_mid {α : Type} (store0 : Store α) (itv : IntervalRec)
    (fd : FrameData α) (tf : ℤ) (k : ℕ) (h5 : 5 ≤ k)
    (hlt : k < (saveFrameOps itv fd tf).length) :
    saveFrameCrash store0 itv fd tf k = sfDeleted itv.interval_id store0 := by
  have hpre : (sfPre5 itv : List (SaveOp α)).foldl applySaveOp (store0, store0)
      = (sfDeleted itv.interval_id store0, sfDeleted itv.interval_id store0) :=
    rfl
  unfold saveFrameCrash
  rw [saveFrameOps_decomp, List.append_assoc, List.append_assoc,
    List.take_append_eq_append_take,
    List.take_of_length_le (l := sfPre5 itv) (by simpa [sfPre5] using h5),
    List.foldl_append, hpre]
  refine sfNoCommit _ _ ?_
  intro op hop
  rw [List.take_append_eq_append_take] at hop
  rcases List.mem_append.mp hop with hop1 | hop1
  · have hop2 := List.take_subset _ _ hop1
    simp only [sfEdgeOps, List.mem_map] at hop2
    obtain ⟨e, _, rfl⟩ := hop2
    simp
  rw [List.take_append_eq_append_take] at hop1
  rcases List.mem_append.mp hop1 with hop2 | hop2
  · have hop3 := List.take_subset _ _ hop2
    simp only [sfNodeOps, List.mem_flatMap] at hop3
    obtain ⟨n, _, hn⟩ := hop3
    simp only [List.mem_cons, List.not_mem_nil, or_false] at hn
    rcases hn with rfl | rfl | rfl <;> simp
  · have hj : k - (sfPre5 itv : List (SaveOp α)).length
        - (sfEdgeOps itv fd).length - (sfNodeOps itv fd).length ≤ 1 := by
      rw [saveFrameOps_decomp] at hlt
      simp only [List.length_append] at hlt
      have hc2 : (sfLast2 itv fd tf : List (SaveOp α)).length = 2 := rfl
      omega
    rcases Nat.le_one_iff_eq_zero_or_eq_one.mp hj with h0 | h1
    · rw [h0] at hop2
      simp at hop2
    · rw [h1] at hop2
      simp only [sfLast2, List.take_succ_cons, List.take_zero,
        List.mem_singleton] at hop2
      subst hop2
      simp

theorem saveFrameCrash_complete {α : Type} (store0 : Store α)
    (itv : IntervalRec) (fd : FrameData α) (tf : ℤ) (k : ℕ)
    (hk : (saveFrameOps itv fd tf).length ≤ k) :
    derivedFor itv.interval_id (saveFrameCrash store0 itv fd tf k)
      = newDerived itv fd tf := by
  have hpre : (sfPre5 itv : List (SaveOp α)).foldl applySaveOp (store0, store0)
      = (sfDeleted itv.interval_id store0, sfDeleted itv.interval_id store0) :=
    rfl
  unfold saveFrameCrash
  rw [List.take_of_length_le hk, saveFrameOps_decomp, List.append_assoc,
    List.append_assoc, List.foldl_append, List.foldl_append,
    List.foldl_append, hpre]
  rw [show (sfEdgeOps itv fd : List (SaveOp α))
      = fd.edges.map (fun e => SaveOp.insEdge (sfEdgeRow itv.interval_id e))
      from rfl]
  rw [sfFoldEdges itv.interval_id]
  rw [show (sfNodeOps itv fd : List (SaveOp α))
      = fd.nodes.flatMap (fun n =>
          [SaveOp.insCommunity (sfCommunityRow itv.interval_id n),
           SaveOp.insPosition (sfPositionRow itv.interval_id n),
           SaveOp.insPosHist (sfPosHistRow itv.interval_id n)]) from rfl]
  rw [sfFoldNodes itv.interval_id]
  simp only [sfLast2, List.foldl_cons, List.foldl_nil, applySaveOp]
  simp only [derivedFor, newDerived, sfDeleted, Prod.mk.injEq]
  refine ⟨?_, ?_, ?_, ?_⟩
  · refine sfDerivedComp (fun r : EdgeRow α => r.interval_id) _ _ _ ?_
    intro r hr
    obtain ⟨e, _, rfl⟩ := List.mem_map.mp hr
    rfl
  · refine sfDerivedComp (fun r : CommunityRow => r.interval_id) _ _ _ ?_
    intro r hr
    obtain ⟨n, _, rfl⟩ := List.mem_map.mp hr
    rfl
  · refine sfDerivedComp (fun r : PositionRec α => r.interval_id) _ _ _ ?_
    intro r hr
    obtain ⟨n, _, rfl⟩ := List.mem_map.mp hr
    rfl
  · refine sfDerivedComp (fun r : FrameRow α => r.interval_id) _ _ _ ?_
    intro r hr
    rw [List.mem_singleton] at hr
    subst hr
    rfl

/-- **C9** counterexample: `save_frame` commits after its deletes and before
its inserts, so a failure between the two commits (here: after the 5th
primitive operation) leaves the interval with *no* rows — neither the
pre-call state nor the complete new frame. Frame persistence is not
all-or-nothing. -/
theorem saveFrame_not_atomic :
    derivedFor 1 (saveFrameCrash c9Store c9Interval c9Frame 30 5)
        ≠ derivedFor 1 c9Store
    ∧ derivedFor 1 (saveFrameCrash c9Store c9Interval c9Frame 30 5)
        ≠ newDerived c9Interval c9Frame 30
    ∧ derivedFor 1 (saveFrameCrash c9Store c9Interval c9Frame 30 5)
        = ([], [], [], []) := by
  refine ⟨by decide, by decide, by decide⟩

/-- **C9** (amended): a `save_frame` run that dies after `k` primitive
operations leaves the interval's derived rows in exactly one of three states:
unchanged (crash before the first commit, `k ≤ 4` — then the whole store is
untouched), empty (crash between the delete-commit and the final commit), or
the complete new frame with its edges, communities and positions (the run
reached the final commit). The spec's all-or-nothing claim admits the middle
"nothing persisted for the interval" state, which loses the pre-call rows. -/
theorem saveFrame_crash_trichotomy {α : Type} (store0 : Store α)
    (itv : IntervalRec) (fd : FrameData α) (tf : ℤ) (k : ℕ) :
    (derivedFor itv.interval_id (saveFrameCrash store0 itv fd tf k)
        = derivedFor itv.interval_id store0
      ∨ derivedFor itv.interval_id (saveFrameCrash store0 itv fd tf k)
        = ([], [], [], [])
      ∨ derivedFor itv.interval_id (saveFrameCrash store0 itv fd tf k)
        = newDerived itv fd tf)
    ∧ (k ≤ 4 → saveFrameCrash store0 itv fd tf k = store0)
    ∧ ((saveFrameOps itv fd tf).length ≤ k →
        derivedFor itv.interval_id (saveFrameCrash store0 itv fd tf k)
          = newDerived itv fd tf)
    ∧ (5 ≤ k → k < (saveFrameOps itv fd tf).length →
        derivedFor itv.interval_id (saveFrameCrash store0 itv fd tf k)
          = ([], [], [], [])) := by
  refine ⟨?_, ?_, ?_, ?_⟩
  · by_cases h1 : k ≤ 4
    · exact Or.inl (congrArg _ (saveFrameCrash_before_commit store0 itv fd tf k h1))
    by_cases h2 : k < (saveFrameOps itv fd tf).length
    · refine Or.inr (Or.inl ?_)
      rw [saveFrameCrash_mid store0 itv fd tf k (by omega) h2]
      exact derivedFor_sfDeleted _ _
    · exact Or.inr (Or.inr
        (saveFrameCrash_complete store0 itv fd tf k (by omega)))
  · exact saveFrameCrash_before_commit store0 itv fd tf k
  · exact saveFrameCrash_complete store0 itv fd tf k
  · intro h5 hlt
    rw [saveFrameCrash_mid store0 itv fd tf k h5 hlt]
    exact derivedFor_sfDeleted _ _

/-- Witness for C9 (amended): the three regimes at the concrete store and
frame — crash at 2 operations leaves the store untouched, at 5 leaves the
interval empty, at 12 (past the 11-operation trace) persists the new frame. -/
theorem saveFrame_crash_trichotomy_witness :
    saveFrameCrash c9Store c9Interval c9Frame 30 2 = c9Store
    ∧ derivedFor c9Interval.interval_id
        (saveFrameCrash c9Store c9Interval c9Frame 30 5) = ([], [], [], [])
    ∧ derivedFor c9Interval.interval_id
        (saveFrameCrash c9Store c9Interval c9Frame 30 12)
      = newDerived c9Interval c9Frame 30 := by
  refine ⟨(saveFrame_crash_trichotomy c9Store c9Interval c9Frame 30 2).2.1
      (by decide),
    (saveFrame_crash_trichotomy c9Store c9Interval c9Frame 30 5).2.2.2
      (by decide) (by decide),
    (saveFrame_crash_trichotomy c9Store c9Interval c9Frame 30 12).2.2.1
      (by decide)⟩

end SocialGraph


